import Mathlib

/-!
# Link bring-up and session orchestration of `cellular_test` and `mqtt_test`

Shallow embedding of the two `main` functions of the repository
(`src/cellular_test/src/main.c` and `src/mqtt_test/src/main.c`).

Each program is a straight-line orchestration of calls into Zephyr (power rail,
PPP interface, sockets, MQTT client).  The calls themselves are external; what a
call returns, and which MQTT events it delivers to the callback, is read from an
environment record.  A run of `main` is the list of calls it makes, in order,
together with what `main` returns.
-/

set_option autoImplicit false

namespace ZephyrApp

/-! ## Shared vocabulary: the calls a run is made of -/

/-- The argument of `k_sleep` built by `K_MSEC(ms)`, in milliseconds. -/
def K_MSEC (ms : Nat) : Nat := ms

/-- The argument of `k_sleep` built by `K_SECONDS(s)`, in milliseconds. -/
def K_SECONDS (s : Nat) : Nat := s * 1000

/-- Type of an MQTT event handed to the callback (`evt->type`); `OTHER` stands
for every type the handler sends to its `default` arm. -/
inductive mqtt_evt_type where
  | MQTT_EVT_CONNACK
  | MQTT_EVT_DISCONNECT
  | MQTT_EVT_PUBACK
  | OTHER (code : Nat)
  deriving DecidableEq, Repr

/-- The fields of `struct mqtt_evt` the handler reads. -/
structure mqtt_evt where
  type : mqtt_evt_type
  result : Int
  message_id : Nat
  deriving DecidableEq, Repr

/-- One observable step of a run: a call into Zephyr, a log line, or the store
into the receive buffer. Arguments are kept where a claim speaks about them. -/
inductive Action where
  | printk (s : String)
  | LOG_ERR (s : String)
  | LOG_INF (s : String)
  | led_on
  | led_off
  | k_sleep (ms : Nat)
  | pm_device_action_run (devIsNull : Bool)
  | net_if_get_first_by_type
  | net_if_up
  | net_mgmt_init_event_callback
  | net_mgmt_add_event_callback
  | net_if_is_up (up : Bool)
  | socket
  | sendto (sock : Int)
  | recvfrom (sock : Int) (size : Nat)
  | close (sock : Int)
  | zsock_close (sock : Int)
  | store_buffer (index : Int)
  | mqtt_client_init
  | getaddrinfo
  | mqtt_connect
  | atomic_get (value : Int)
  | poll (fd : Int) (timeoutMs : Nat)
  | mqtt_input
  | mqtt_live
  | mqtt_publish (payload : String) (len : Nat)
  | mqtt_disconnect
  | evt_delivered (e : mqtt_evt)
  deriving DecidableEq, Repr

/-- How `main` ends: it returns a code, or it parks in the final
`while (1) k_sleep(K_SECONDS(10))` and never returns. -/
inductive Outcome where
  | returned (code : Int)
  | idle_forever
  deriving DecidableEq, Repr

/-- A run of `main`: the calls made, in order, and how it ended. -/
structure Run where
  trace : List Action
  outcome : Outcome
  deriving DecidableEq, Repr

/-- Prepend calls to a run. -/
def Run.after (pre : List Action) (r : Run) : Run := ⟨pre ++ r.trace, r.outcome⟩

/-- Session operations: everything that uses the link once it is up (socket
open, send, receive, close; MQTT init, resolve, connect, poll, input, keep-alive,
publish, disconnect). -/
def Action.isSessionOp : Action → Bool
  | .socket => true
  | .sendto _ => true
  | .recvfrom _ _ => true
  | .close _ => true
  | .zsock_close _ => true
  | .mqtt_client_init => true
  | .getaddrinfo => true
  | .mqtt_connect => true
  | .poll _ _ => true
  | .mqtt_input => true
  | .mqtt_live => true
  | .mqtt_publish _ _ => true
  | .mqtt_disconnect => true
  | _ => false

/-- Network actions of the bring-up: the power-management resume, the PPP
interface lookup, the bring-interface-up request and the status polls. -/
def Action.isNetworkAction : Action → Bool
  | .pm_device_action_run _ => true
  | .net_if_get_first_by_type => true
  | .net_if_up => true
  | .net_mgmt_init_event_callback => true
  | .net_mgmt_add_event_callback => true
  | .net_if_is_up _ => true
  | _ => false

/-- A device as seen through `device_is_ready`. -/
structure Device where
  ready : Bool
  deriving DecidableEq, Repr

/-- Zephyr's `device_is_ready(dev)`: false for a null handle, else the
device's readiness. -/
def device_is_ready : Option Device → Bool
  | none => false
  | some d => d.ready

/-- The power rail part shared by both programs: `shutdown_modem_power`. -/
def shutdown_modem_power (ldoReady : Bool) : List Action :=
  if !ldoReady then []
  else [.printk "Turning off Modem LDO...", .led_off, .k_sleep (K_MSEC 2000)]

/-- The power rail part shared by both programs: `setup_modem_power`. -/
def setup_modem_power (ldoReady : Bool) (ledOnRet : Int) : List Action :=
  if !ldoReady then [.printk "LDO Enable device not ready"]
  else
    [.printk "Turning on Modem LDO...", .led_on]
      ++ (if ledOnRet < 0 then [.printk "Failed to turn on LDO"] else [])
      ++ [.k_sleep (K_MSEC 100)]

/-! ## `cellular_test` -/

namespace cellular_test

/-- The errno constants named by the switch of `main`; their values come from
the C library headers, which are not part of the repository. -/
structure Errno where
  ENETUNREACH : Int
  EHOSTUNREACH : Int
  EADDRNOTAVAIL : Int
  ENOBUFS : Int
  EACCES : Int
  EIO : Int
  deriving DecidableEq, Repr

/-- Case labels of a C `switch` are pairwise different. -/
def Errno.distinct (c : Errno) : Prop :=
  [c.ENETUNREACH, c.EHOSTUNREACH, c.EADDRNOTAVAIL, c.ENOBUFS, c.EACCES, c.EIO].Nodup

instance (c : Errno) : Decidable c.distinct := by
  unfold Errno.distinct; infer_instance

/-- The values Zephyr's errno.h gives the six constants. -/
def zephyrErrno : Errno :=
  { ENETUNREACH := 114, EHOSTUNREACH := 118, EADDRNOTAVAIL := 125,
    ENOBUFS := 105, EACCES := 13, EIO := 5 }

/-- The arms of the `switch (errno)` after a failed send, by what they report. -/
inductive SendFailure where
  | NetworkUnreachable
  | HostUnreachable
  | AddressUnavailable
  | OutOfBuffers
  | PermissionDenied
  | IOError
  | Unspecified
  deriving DecidableEq, Repr

/-- The line each arm logs. -/
def SendFailure.text : SendFailure → String
  | .NetworkUnreachable => "Network is unreachable. Check PPP connection and routing."
  | .HostUnreachable => "Host is unreachable. Check DNS server IP and network."
  | .AddressUnavailable => "Address not available. Check local IP configuration."
  | .OutOfBuffers => "No buffer space available. System may be out of memory."
  | .PermissionDenied => "Permission denied. Check socket permissions."
  | .IOError => "I/O error. Possible modem or driver issue."
  | .Unspecified => "UDP send failed with unspecified error."

/-- The `switch (errno)` of lines 117-139: the arm taken for an errno value.
Every arm ends in `break`, so one arm runs. -/
def classify (c : Errno) (errno : Int) : SendFailure :=
  if errno = c.ENETUNREACH then .NetworkUnreachable
  else if errno = c.EHOSTUNREACH then .HostUnreachable
  else if errno = c.EADDRNOTAVAIL then .AddressUnavailable
  else if errno = c.ENOBUFS then .OutOfBuffers
  else if errno = c.EACCES then .PermissionDenied
  else if errno = c.EIO then .IOError
  else .Unspecified

/-- What the outside world answers to the calls of `cellular_test`'s `main`. -/
structure Env where
  /-- Answer of `device_is_ready(ldo_en)` in `shutdown_modem_power` -/
  ldoReadyOff : Bool
  /-- Answer of `device_is_ready(ldo_en)` in `setup_modem_power` -/
  ldoReadyOn : Bool
  ledOnRet : Int
  /-- the modem handle; `none` is `NULL`, which `main` tests for although
  `DEVICE_DT_GET` yields the address of a static device object -/
  modem_dev : Option Device
  /-- whether `net_if_get_first_by_type` finds a PPP interface -/
  ifaceFound : Bool
  /-- answer of the n-th call of `net_if_is_up` (counted from 0) -/
  isUp : Nat → Bool
  /-- return value of `socket` -/
  sock : Int
  errno : Errno
  /-- return value of `sendto` in round i -/
  sent : Nat → Int
  /-- Value of `errno` after `sendto` in round i -/
  sendErrno : Nat → Int
  /-- return value of `recvfrom` in round i -/
  recv : Nat → Int

/-- Size of `char buffer[32]`. -/
def bufferSize : Nat := 32

/-- Whether `buffer[index]` is an element of `char buffer[32]`. -/
def inBuffer (index : Int) : Prop := 0 ≤ index ∧ index < bufferSize

instance (index : Int) : Decidable (inBuffer index) := by
  unfold inBuffer; infer_instance

/-- Lines 80-83: `while (timeout-- > 0 && !net_if_is_up(iface)) k_sleep(K_SECONDS(1));`
`polls` is the number of `net_if_is_up` calls made before. Returns the calls
made and the number of polls after the loop. -/
def link_wait (isUp : Nat → Bool) : Nat → Nat → List Action × Nat
  | 0, polls => ([], polls)
  | timeout + 1, polls =>
    if !isUp polls then
      let rest := link_wait isUp timeout (polls + 1)
      (.net_if_is_up false :: .k_sleep (K_SECONDS 1) :: rest.1, rest.2)
    else ([.net_if_is_up true], polls + 1)

/-- One round of the `for` loop, lines 110-155. -/
def round (env : Env) (i : Nat) : List Action :=
  [.sendto env.sock]
    ++ (if env.sent i < 0 then
          [.LOG_ERR "UDP send failed: %s (errno %d)",
           .LOG_ERR (classify env.errno (env.sendErrno i)).text]
        else [.LOG_INF "UDP test packet sent successfully (%zd bytes)"])
    ++ [.recvfrom env.sock bufferSize]
    ++ (if env.recv i < 0 then
          [.close env.sock, .LOG_ERR "UDP recv failed with unspecified error."]
        else [])
    ++ [.store_buffer (env.recv i),
        .LOG_INF "UDP test receive packet ( %s )",
        .k_sleep (K_SECONDS 2)]

/-- Lines 109-155: `for (int i = 0; i < 5; i++)`; the body has no `break`,
`continue` or `return`. -/
def rounds (env : Env) : List Action :=
  (List.range 5).flatMap (round env)

/-- Lines 92-164: the datagram session, entered once the link is up. -/
def session (env : Env) : Run :=
  if env.sock < 0 then
    ⟨[.socket, .LOG_ERR "Socket creation failed: %s (errno %d)"], .returned (-1)⟩
  else
    ⟨[.socket, .LOG_INF "Waiting Modem UP", .k_sleep (K_SECONDS 5)]
      ++ rounds env
      ++ [.LOG_INF "UDP Socket close", .zsock_close env.sock,
          .LOG_INF "UDP Socket Test end"],
     .idle_forever⟩

/-- Lines 65-165 of `main`, from the resume on, with the bring-up countdown
`timeout` (60 in the source) as a parameter. -/
def bring_up (timeout : Nat) (env : Env) : Run :=
  let t1 : List Action :=
    [.pm_device_action_run env.modem_dev.isNone, .LOG_INF "booting up...",
     .net_if_get_first_by_type]
  if !env.ifaceFound then
    ⟨t1 ++ [.LOG_ERR "No PPP interface found"], .returned (-1)⟩
  else
    let w := link_wait env.isUp timeout 0
    let t2 := t1
      ++ [.net_if_up, .net_mgmt_init_event_callback, .net_mgmt_add_event_callback] ++ w.1
    if !env.isUp w.2 then
      ⟨t2 ++ [.net_if_is_up false, .LOG_ERR "PPP connection failed"], .returned (-1)⟩
    else
      (session env).after (t2 ++ [.net_if_is_up true, .LOG_INF "PPP connected successfully"])

/-- Lines 50-165: `main`, with the bring-up countdown as a parameter. -/
def mainWith (timeout : Nat) (env : Env) : Run :=
  let t0 := shutdown_modem_power env.ldoReadyOff
    ++ setup_modem_power env.ldoReadyOn env.ledOnRet
  match env.modem_dev with
  | none =>
    (bring_up timeout env).after (t0 ++ [.LOG_ERR "Modem device not found"])
  | some d =>
    if !device_is_ready (some d) then
      ⟨t0 ++ [.LOG_ERR "Modem device not ready! Check init."], .returned (-1)⟩
    else
      (bring_up timeout env).after (t0 ++ [.LOG_INF "Modem ready"])

/-- The program's `main`: `int timeout = 60;`. -/
def main (env : Env) : Run := mainWith 60 env

end cellular_test

/-! ## `mqtt_test` -/

namespace mqtt_test

/-- Constants of the C library and socket headers used by `main`; the headers
are not part of the repository. -/
structure Consts where
  POLLIN : Nat
  EAGAIN : Int
  ECHILD : Int
  deriving DecidableEq, Repr

/-- The values Zephyr gives the constants. -/
def zephyrConsts : Consts := { POLLIN := 1, EAGAIN := 11, ECHILD := 10 }

/-- The `#define MQTT_PUB_MSG_COUNT 5`. -/
def MQTT_PUB_MSG_COUNT : Nat := 5

/-- The file-scope variables `main` and the callback share:
`static atomic_t connected` and `pfd.fd`. -/
structure State where
  connected : Int
  pfd_fd : Int
  deriving DecidableEq, Repr

/-- File-scope variables are zero at program start. -/
def State.init : State := { connected := 0, pfd_fd := 0 }

/-- The callback `mqtt_evt_handler`, lines 76-103: the new state and the line
it logs. -/
def mqtt_evt_handler (st : State) (evt : mqtt_evt) : State × List Action :=
  match evt.type with
  | .MQTT_EVT_CONNACK =>
    if evt.result ≠ 0 then (st, [.LOG_ERR "MQTT connect failed: %d"])
    else ({ st with connected := 1 }, [.LOG_INF "MQTT client connected"])
  | .MQTT_EVT_DISCONNECT =>
    ({ connected := 0, pfd_fd := -1 }, [.LOG_INF "MQTT client disconnected: %d"])
  | .MQTT_EVT_PUBACK => (st, [.LOG_INF "PUBACK packet id: %u"])
  | .OTHER _ => (st, [])

/-- The callback run on each event of a batch, in order. -/
def deliver (st : State) : List mqtt_evt → State × List Action
  | [] => (st, [])
  | e :: es =>
    let h := mqtt_evt_handler st e
    let r := deliver h.1 es
    (r.1, .evt_delivered e :: h.2 ++ r.2)

/-- What the outside world does during one slice of the CONNACK wait. Each
`Evts` field lists the events handed to the callback while `main` is inside
that call. -/
structure Slice where
  pollRet : Int
  revents : Nat
  pollEvts : List mqtt_evt
  inputRet : Int
  inputEvts : List mqtt_evt

/-- What the outside world does during one round of the publish loop. -/
structure Round where
  pollRet : Int
  revents : Nat
  pollEvts : List mqtt_evt
  inputRet : Int
  inputEvts : List mqtt_evt
  liveRet : Int
  liveEvts : List mqtt_evt
  publishEvts : List mqtt_evt
  /-- Events delivered during the `k_sleep` that ends the round, that is,
  between this round and the next evaluation of the loop guard. -/
  sleepEvts : List mqtt_evt

/-- What the outside world answers to the calls of `mqtt_test`'s `main`. -/
structure Env where
  ldoReadyOff : Bool
  ldoReadyOn : Bool
  ledOnRet : Int
  /-- The modem handle; `none` is `NULL`. -/
  modem_dev : Option Device
  ifaceFound : Bool
  /-- Answer of the n-th call of `net_if_is_up` (counted from 0). -/
  isUp : Nat → Bool
  getaddrinfoRet : Int
  connectRet : Int
  connectEvts : List mqtt_evt
  /-- Value of `client.transport.tcp.sock` after `mqtt_connect`. -/
  sock : Int
  /-- Slice k of the CONNACK wait (counted from 0). -/
  conn : Nat → Slice
  /-- Round i of the publish loop (counted from 0). -/
  pub : Nat → Round
  disconnectRet : Int

/-- Lines 194-197: the bring-up wait; as in `cellular_test` with one more log
line in the body. -/
def link_wait (isUp : Nat → Bool) : Nat → Nat → List Action × Nat
  | 0, polls => ([], polls)
  | timeout + 1, polls =>
    if !isUp polls then
      let rest := link_wait isUp timeout (polls + 1)
      (.net_if_is_up false :: .LOG_INF "Waiting for PPP connection... %d s left"
        :: .k_sleep (K_SECONDS 1) :: rest.1, rest.2)
    else ([.net_if_is_up true], polls + 1)

/-- The function `client_init`, lines 105-125; it always returns 0. -/
def client_init : List Action × Int := ([.mqtt_client_init], 0)

/-- The function `broker_init`, lines 127-150. -/
def broker_init (c : Consts) (getaddrinfoRet : Int) : List Action × Int :=
  if getaddrinfoRet ≠ 0 then
    ([.getaddrinfo, .LOG_ERR "getaddrinfo failed: %d"], -c.ECHILD)
  else ([.getaddrinfo], 0)

/-- The text `sprintf(payload, "Message %u from Zephyr", n)` writes. -/
def payload (n : Nat) : String := "Message " ++ toString n ++ " from Zephyr"

/-- The function `data_publish`, lines 152-167: one `mqtt_publish` whose
result is dropped. -/
def data_publish (data : String) (len : Nat) : List Action :=
  [.mqtt_publish data len]

/-- Lines 230-242: `while (timeout-- > 0 && !atomic_get(&connected))`, slice k
being the next. `none` as state: `main` returned 0 from inside the loop. -/
def connack_wait (c : Consts) (conn : Nat → Slice) :
    Nat → Nat → State → List Action × Option State
  | 0, _, st => ([], some st)
  | timeout + 1, k, st =>
    if st.connected ≠ 0 then ([.atomic_get st.connected], some st)
    else
      let s := conn k
      let p := deliver st s.pollEvts
      let t1 : List Action := [.atomic_get st.connected, .poll st.pfd_fd 1000] ++ p.2
      if 0 < s.pollRet ∧ s.revents &&& c.POLLIN ≠ 0 then
        let q := deliver p.1 s.inputEvts
        if s.inputRet ≠ 0 then
          (t1 ++ [.mqtt_input] ++ q.2 ++ [.LOG_ERR "mqtt_input: %d"], none)
        else
          let rest := connack_wait c conn timeout (k + 1) q.1
          (t1 ++ [.mqtt_input] ++ q.2 ++ rest.1, rest.2)
      else if s.pollRet < 0 then
        (t1 ++ [.LOG_ERR "poll failed: %d"], none)
      else
        let rest := connack_wait c conn timeout (k + 1) p.1
        (t1 ++ rest.1, rest.2)

/-- Lines 264-274: the second half of the loop body in round `i` (the value
of the counter on entry): keep-alive, then publish and sleep. `none` as state:
the body left the loop by `break`. -/
def live_and_publish (c : Consts) (r : Round) (i : Nat) (st : State) :
    List Action × Option State :=
  let l := deliver st r.liveEvts
  if r.liveRet ≠ 0 ∧ r.liveRet ≠ -c.EAGAIN then
    ([.mqtt_live] ++ l.2 ++ [.LOG_ERR "mqtt_live: %d"], none)
  else
    let u := deliver l.1 r.publishEvts
    let z := deliver u.1 r.sleepEvts
    ([.mqtt_live] ++ l.2 ++ [.LOG_INF "Publishing message %u..."]
        ++ data_publish (payload (i + 1)) (payload (i + 1)).length ++ u.2
        ++ [.k_sleep (K_SECONDS 2)] ++ z.2,
     some z.1)

/-- Lines 250-274: the body of the publish loop in round `i`: poll, input
processing when `POLLIN` is set, then the second half. `none` as state: the
body left the loop by `break`. -/
def publish_round (c : Consts) (r : Round) (i : Nat) (st : State) :
    List Action × Option State :=
  let p := deliver st r.pollEvts
  let t1 : List Action := [.poll st.pfd_fd 100] ++ p.2
  if r.pollRet < 0 then (t1 ++ [.LOG_ERR "poll: %d"], none)
  else if r.revents &&& c.POLLIN = c.POLLIN then
    let d := deliver p.1 r.inputEvts
    if r.inputRet ≠ 0 then
      (t1 ++ [.mqtt_input] ++ d.2 ++ [.LOG_ERR "mqtt_input: %d"], none)
    else
      let q := live_and_publish c r i d.1
      (t1 ++ [.mqtt_input] ++ d.2 ++ q.1, q.2)
  else
    let q := live_and_publish c r i p.1
    (t1 ++ q.1, q.2)

/-- Lines 249-275: `while (i < MQTT_PUB_MSG_COUNT && atomic_get(&connected))`,
by recursion on `left`, the number of values `i` can still take below
`MQTT_PUB_MSG_COUNT`. The flag is read only when `i < MQTT_PUB_MSG_COUNT`. -/
def publish_loop_from (c : Consts) (pub : Nat → Round) :
    Nat → Nat → State → List Action
  | 0, _, _ => []
  | left + 1, i, st =>
    if st.connected ≠ 0 then
      match publish_round c (pub i) i st with
      | (t, none) => .atomic_get st.connected :: t
      | (t, some st1) =>
        .atomic_get st.connected :: t ++ publish_loop_from c pub left (i + 1) st1
    else [.atomic_get st.connected]

/-- The publish loop entered with counter `i`. -/
def publish_loop (c : Consts) (pub : Nat → Round) (i : Nat) (st : State) :
    List Action :=
  publish_loop_from c pub (MQTT_PUB_MSG_COUNT - i) i st

/-- Lines 249-286: the publish loop and the cleanup after it. -/
def publish_phase (c : Consts) (env : Env) (st : State) : Run :=
  ⟨publish_loop c env.pub 0 st
      ++ [.LOG_INF "Disconnecting MQTT client...", .mqtt_disconnect]
      ++ (if env.disconnectRet ≠ 0 then [.LOG_ERR "mqtt_disconnect: %d"] else [])
      ++ [.LOG_INF "Bye!"],
   .returned 0⟩

/-- Lines 206-286: the MQTT session, entered once the link is up. -/
def session (c : Consts) (env : Env) : Run :=
  let t0 : List Action :=
    [.LOG_INF "Waiting Modem UP", .k_sleep (K_SECONDS 5),
     .LOG_INF "Initializing MQTT client..."] ++ client_init.1
  if client_init.2 ≠ 0 then ⟨t0 ++ [.LOG_ERR "client_init: %d"], .returned 0⟩
  else
    let b := broker_init c env.getaddrinfoRet
    if b.2 ≠ 0 then ⟨t0 ++ b.1 ++ [.LOG_ERR "broker_init: %d"], .returned 0⟩
    else
      let e := deliver State.init env.connectEvts
      let t1 := t0 ++ b.1 ++ [.mqtt_connect] ++ e.2
      if env.connectRet ≠ 0 then ⟨t1 ++ [.LOG_ERR "mqtt_connect: %d"], .returned 0⟩
      else
        let st : State := { e.1 with pfd_fd := env.sock }
        let w := connack_wait c env.conn 10 0 st
        let t2 := t1 ++ [.LOG_INF "Waiting for CONNACK..."] ++ w.1
        match w.2 with
        | none => ⟨t2, .returned 0⟩
        | some st1 =>
          if st1.connected = 0 then
            ⟨t2 ++ [.atomic_get st1.connected,
                    .LOG_ERR "Failed to connect to MQTT broker within 10 seconds."],
             .returned 0⟩
          else
            (publish_phase c env st1).after (t2 ++ [.atomic_get st1.connected])

/-- Lines 169-286: `main`, with the bring-up countdown as a parameter. -/
def mainWith (timeout : Nat) (c : Consts) (env : Env) : Run :=
  let t0 := shutdown_modem_power env.ldoReadyOff
    ++ setup_modem_power env.ldoReadyOn env.ledOnRet
  if !device_is_ready env.modem_dev then
    ⟨t0 ++ [.LOG_ERR "Modem device not ready!"], .returned (-1)⟩
  else
    let t1 := t0 ++ [.LOG_INF "Modem ready", .pm_device_action_run env.modem_dev.isNone,
      .LOG_INF "Bringing up PPP interface...", .net_if_get_first_by_type]
    if !env.ifaceFound then
      ⟨t1 ++ [.LOG_ERR "No PPP interface found"], .returned (-1)⟩
    else
      let w := link_wait env.isUp timeout 0
      let t2 := t1 ++ [.net_if_up] ++ w.1
      if !env.isUp w.2 then
        ⟨t2 ++ [.net_if_is_up false, .LOG_ERR "PPP connection failed after 60 seconds"],
         .returned (-1)⟩
      else
        (session c env).after
          (t2 ++ [.net_if_is_up true, .LOG_INF "PPP connected successfully!"])

/-- The program's `main`: `int timeout = 60;`. -/
def main (c : Consts) (env : Env) : Run := mainWith 60 c env

end mqtt_test

/-! ## Vocabulary of the statements -/

/-- Every call the two power functions can make. -/
def powerActions : List Action :=
  [.printk "Turning off Modem LDO...", .led_off, .k_sleep 2000,
   .printk "LDO Enable device not ready", .printk "Turning on Modem LDO...", .led_on,
   .printk "Failed to turn on LDO", .k_sleep 100]

/-- Steps that can occur once the session has started: session operations,
log lines, callback deliveries, reads of the flag, the store into the receive
buffer, and the 5 s and 2 s sleeps. -/
def Action.isSessionStep : Action → Bool
  | .LOG_ERR _ => true
  | .LOG_INF _ => true
  | .evt_delivered _ => true
  | .atomic_get _ => true
  | .store_buffer _ => true
  | .k_sleep ms => ms == 5000 || ms == 2000
  | a => a.isSessionOp

/-- Whether a step is an `mqtt_publish` call. -/
def Action.isPublish : Action → Bool
  | .mqtt_publish _ _ => true
  | _ => false

/-- Whether a step is a `poll` call. -/
def Action.isPoll : Action → Bool
  | .poll _ _ => true
  | _ => false

/-- Whether a step is a send, a receive, or the `zsock_close` after the loop. -/
def Action.isDatagramCall : Action → Bool
  | .sendto _ => true
  | .recvfrom _ _ => true
  | .zsock_close _ => true
  | _ => false

/-- Whether an event is a CONNACK with result 0, the one event on which the
callback sets the flag. -/
def mqtt_evt.isPositiveConnack (e : mqtt_evt) : Bool :=
  e.type = .MQTT_EVT_CONNACK && e.result = 0

/-- Whether an event is a disconnect event. -/
def mqtt_evt.isDisconnect (e : mqtt_evt) : Bool :=
  e.type = .MQTT_EVT_DISCONNECT

/-- Steps that can occur in `mqtt_test` before the publish loop is entered:
everything but keep-alive, publish, disconnect and a 100 ms poll. -/
def Action.isBeforeLoop : Action → Bool
  | .mqtt_live => false
  | .mqtt_publish _ _ => false
  | .mqtt_disconnect => false
  | .poll _ ms => ms != 100
  | _ => true

/-- The payloads of the `mqtt_publish` calls of a trace, in order. -/
def publishes : List Action → List String
  | [] => []
  | .mqtt_publish p _ :: t => p :: publishes t
  | _ :: t => publishes t

/-- Steps the callback makes: the delivery itself and its log line. -/
def Action.isCallbackStep : Action → Bool
  | .LOG_ERR _ => true
  | .LOG_INF _ => true
  | .evt_delivered _ => true
  | _ => false

/-- Steps of the CONNACK wait: reads of the flag, 1000 ms polls, input
processing, and callback steps. -/
def Action.isWaitStep : Action → Bool
  | .atomic_get _ => true
  | .poll _ ms => ms == 1000
  | .mqtt_input => true
  | a => a.isCallbackStep

/-- Steps of the publish loop: reads of the flag, 100 ms polls, input
processing, keep-alive, publish, the 2 s sleep, and callback steps. -/
def Action.isLoopStep : Action → Bool
  | .atomic_get _ => true
  | .poll _ ms => ms == 100
  | .mqtt_input => true
  | .mqtt_live => true
  | .mqtt_publish _ _ => true
  | .k_sleep ms => ms == 2000
  | a => a.isCallbackStep

/-! ## Sample environments -/

/-- A modem and interface that work, a link that reports up on the third poll
only (down on the first two and again on the fourth), and an echo peer that
answers every datagram. -/
def cellular_test.envFlap : cellular_test.Env :=
  { ldoReadyOff := true, ldoReadyOn := true, ledOnRet := 0,
    modem_dev := some { ready := true }, ifaceFound := true,
    isUp := fun n => n == 2, sock := 0, errno := cellular_test.zephyrErrno,
    sent := fun _ => 16, sendErrno := fun _ => 0, recv := fun _ => 16 }

/-- As `envFlap`, with a link that stays up from the third poll on. -/
def cellular_test.envUp : cellular_test.Env :=
  { cellular_test.envFlap with isUp := fun n => decide (2 ≤ n) }

/-- As `envFlap`, with a link that never comes up. -/
def cellular_test.envDown : cellular_test.Env :=
  { cellular_test.envFlap with isUp := fun _ => false }

/-- A round of the publish loop in which nothing arrives and every call
succeeds. -/
def mqtt_test.quietRound : mqtt_test.Round :=
  { pollRet := 0, revents := 0, pollEvts := [], inputRet := 0, inputEvts := [],
    liveRet := 0, liveEvts := [], publishEvts := [], sleepEvts := [] }

/-- A slice of the CONNACK wait in which the broker's positive CONNACK
arrives. -/
def mqtt_test.ackSlice : mqtt_test.Slice :=
  { pollRet := 1, revents := 1, pollEvts := [], inputRet := 0,
    inputEvts := [{ type := .MQTT_EVT_CONNACK, result := 0, message_id := 0 }] }

/-- A slice of the CONNACK wait in which nothing arrives. -/
def mqtt_test.quietSlice : mqtt_test.Slice :=
  { pollRet := 0, revents := 0, pollEvts := [], inputRet := 0, inputEvts := [] }

/-- A run in which everything works: the link is up from the third poll on,
the broker acknowledges in the first slice, and all five rounds are quiet. -/
def mqtt_test.envUp : mqtt_test.Env :=
  { ldoReadyOff := true, ldoReadyOn := true, ledOnRet := 0,
    modem_dev := some { ready := true }, ifaceFound := true,
    isUp := fun n => decide (2 ≤ n), getaddrinfoRet := 0, connectRet := 0,
    connectEvts := [], sock := 3, conn := fun _ => mqtt_test.ackSlice,
    pub := fun _ => mqtt_test.quietRound, disconnectRet := 0 }

/-- As `envUp`, with a link that never comes up. -/
def mqtt_test.envDown : mqtt_test.Env :=
  { mqtt_test.envUp with isUp := fun _ => false }

/-- As `cellular_test.envUp`, with a null modem handle; `DEVICE_DT_GET` never
yields one, so this environment only exercises the branch `main` has for it. -/
def cellular_test.envNull : cellular_test.Env :=
  { cellular_test.envUp with modem_dev := none }

/-- As `cellular_test.envUp`, with a datagram that fills the 32-byte buffer in
round 0, a failed receive in round 1, and a send that fails with
`ENETUNREACH` in round 2. -/
def cellular_test.envBadRecv : cellular_test.Env :=
  { cellular_test.envUp with
    recv := fun i => if i = 0 then 32 else if i = 1 then -1 else 16,
    sent := fun i => if i = 2 then -1 else 16,
    sendErrno := fun i => if i = 2 then 114 else 0 }

/-- A slice of the CONNACK wait in which a CONNACK refusing the connection
(result 5) arrives. -/
def mqtt_test.refusedSlice : mqtt_test.Slice :=
  { pollRet := 1, revents := 1, pollEvts := [], inputRet := 0,
    inputEvts := [{ type := .MQTT_EVT_CONNACK, result := 5, message_id := 0 }] }

/-- As `mqtt_test.envUp`, with a broker that never accepts the connect request:
the first slice brings a refusal, the others nothing. -/
def mqtt_test.envNoAck : mqtt_test.Env :=
  { mqtt_test.envUp with
    conn := fun k => if k = 0 then mqtt_test.refusedSlice else mqtt_test.quietSlice }

/-- The events handed to the callback during a round of the publish loop that
runs to its end, in the order of delivery; input events count only when input
processing is called. -/
def mqtt_test.Round.delivered (c : mqtt_test.Consts) (r : mqtt_test.Round) : List mqtt_evt :=
  r.pollEvts ++ (if r.revents &&& c.POLLIN = c.POLLIN then r.inputEvts else [])
    ++ r.liveEvts ++ r.publishEvts ++ r.sleepEvts

/-- The five payloads of a full run of the publish loop. -/
def mqtt_test.fivePayloads : List String :=
  ["Message 1 from Zephyr", "Message 2 from Zephyr", "Message 3 from Zephyr",
   "Message 4 from Zephyr", "Message 5 from Zephyr"]

/-- The disconnect event used in the sample runs. -/
def mqtt_test.disconnectEvt : mqtt_evt :=
  { type := .MQTT_EVT_DISCONNECT, result := 0, message_id := 0 }

/-- A round in which input processing delivers a disconnect event and returns
success; keep-alive succeeds too. -/
def mqtt_test.disconnectRound : mqtt_test.Round :=
  { mqtt_test.quietRound with
    pollRet := 1, revents := 1, inputRet := 0, inputEvts := [mqtt_test.disconnectEvt] }

/-- As `mqtt_test.envUp`, with the disconnect round as round 0. -/
def mqtt_test.envDisconnect : mqtt_test.Env :=
  { mqtt_test.envUp with
    pub := fun i => if i = 0 then mqtt_test.disconnectRound else mqtt_test.quietRound }

/-- As `mqtt_test.envUp`, with a disconnect event delivered during the sleep
that ends round 1 (the second round), and a disconnect request that fails. -/
def mqtt_test.envDisconnectBetween : mqtt_test.Env :=
  { mqtt_test.envUp with
    pub := fun i =>
      if i = 1 then { mqtt_test.quietRound with sleepEvts := [mqtt_test.disconnectEvt] }
      else mqtt_test.quietRound,
    disconnectRet := -128 }

/-- As `mqtt_test.envUp`, with keep-alive reporting would-block in every round. -/
def mqtt_test.envWouldBlock : mqtt_test.Env :=
  { mqtt_test.envUp with pub := fun _ => { mqtt_test.quietRound with liveRet := -11 } }

/-! ## Lemmas on the bring-up wait and the power sequence -/

namespace cellular_test

theorem link_wait_not_session (isUp : Nat → Bool) (T p : Nat) :
    ∀ a ∈ (link_wait isUp T p).1, a.isSessionOp = false := by
  induction T generalizing p with
  | zero => simp [link_wait]
  | succ t ih =>
    intro a ha
    simp only [link_wait] at ha
    split at ha
    · simp at ha
      rcases ha with rfl | rfl | h
      · rfl
      · rfl
      · exact ih _ a h
    · simp at ha
      subst ha; rfl

theorem link_wait_down (isUp : Nat → Bool) (T p : Nat)
    (h : ∀ n, p ≤ n → n < p + T → isUp n = false) :
    (link_wait isUp T p).2 = p + T ∧
      (link_wait isUp T p).1.count (.k_sleep (K_SECONDS 1)) = T ∧
      (link_wait isUp T p).1.count (.net_if_is_up false) = T ∧
      (link_wait isUp T p).1.count (.net_if_is_up true) = 0 := by
  induction T generalizing p with
  | zero => simp [link_wait]
  | succ t ih =>
    have h0 : isUp p = false := h p (le_refl _) (by omega)
    obtain ⟨h1, h2, h3, h4⟩ := ih (p + 1) (fun n h1 h2 => h n (by omega) (by omega))
    simp only [K_SECONDS] at h2 ⊢
    simp [link_wait, h0, h1, h2, h3, h4, K_SECONDS]
    omega

theorem link_wait_up (isUp : Nat → Bool) (T p k : Nat) (hk : k < T)
    (hdown : ∀ n, p ≤ n → n < p + k → isUp n = false) (hup : isUp (p + k) = true) :
    (link_wait isUp T p).2 = p + k + 1 ∧
      (link_wait isUp T p).1.count (.k_sleep (K_SECONDS 1)) = k ∧
      (link_wait isUp T p).1.count (.net_if_is_up false) = k ∧
      (link_wait isUp T p).1.count (.net_if_is_up true) = 1 := by
  induction T generalizing p k with
  | zero => omega
  | succ t ih =>
    cases k with
    | zero =>
      simp at hup
      simp [link_wait, hup]
    | succ j =>
      have h0 : isUp p = false := hdown p (le_refl _) (by omega)
      obtain ⟨h1, h2, h3, h4⟩ := ih (p + 1) j (by omega)
        (fun n h1 h2 => hdown n (by omega) (by omega)) (by rw [← hup]; congr 1; omega)
      simp only [K_SECONDS] at h2 ⊢
      simp [link_wait, h0, h1, h2, h3, h4, K_SECONDS]
      omega

end cellular_test

namespace mqtt_test

theorem wait_loop_not_session (isUp : Nat → Bool) (T p : Nat) :
    ∀ a ∈ (link_wait isUp T p).1, a.isSessionOp = false := by
  induction T generalizing p with
  | zero => simp [link_wait]
  | succ t ih =>
    intro a ha
    simp only [link_wait] at ha
    split at ha
    · simp at ha
      rcases ha with rfl | rfl | rfl | h
      · rfl
      · rfl
      · rfl
      · exact ih _ a h
    · simp at ha
      subst ha; rfl

theorem wait_loop_down (isUp : Nat → Bool) (T p : Nat)
    (h : ∀ n, p ≤ n → n < p + T → isUp n = false) :
    (link_wait isUp T p).2 = p + T ∧
      (link_wait isUp T p).1.count (.k_sleep (K_SECONDS 1)) = T ∧
      (link_wait isUp T p).1.count (.net_if_is_up false) = T ∧
      (link_wait isUp T p).1.count (.net_if_is_up true) = 0 := by
  induction T generalizing p with
  | zero => simp [link_wait]
  | succ t ih =>
    have h0 : isUp p = false := h p (le_refl _) (by omega)
    obtain ⟨h1, h2, h3, h4⟩ := ih (p + 1) (fun n h1 h2 => h n (by omega) (by omega))
    simp only [K_SECONDS] at h2 ⊢
    simp [link_wait, h0, h1, h2, h3, h4, K_SECONDS]
    omega

theorem wait_loop_up (isUp : Nat → Bool) (T p k : Nat) (hk : k < T)
    (hdown : ∀ n, p ≤ n → n < p + k → isUp n = false) (hup : isUp (p + k) = true) :
    (link_wait isUp T p).2 = p + k + 1 ∧
      (link_wait isUp T p).1.count (.k_sleep (K_SECONDS 1)) = k ∧
      (link_wait isUp T p).1.count (.net_if_is_up false) = k ∧
      (link_wait isUp T p).1.count (.net_if_is_up true) = 1 := by
  induction T generalizing p k with
  | zero => omega
  | succ t ih =>
    cases k with
    | zero =>
      simp at hup
      simp [link_wait, hup]
    | succ j =>
      have h0 : isUp p = false := hdown p (le_refl _) (by omega)
      obtain ⟨h1, h2, h3, h4⟩ := ih (p + 1) j (by omega)
        (fun n h1 h2 => hdown n (by omega) (by omega)) (by rw [← hup]; congr 1; omega)
      simp only [K_SECONDS] at h2 ⊢
      simp [link_wait, h0, h1, h2, h3, h4, K_SECONDS]
      omega

end mqtt_test

theorem shutdown_mem (a : Bool) : ∀ x ∈ shutdown_modem_power a, x ∈ powerActions := by
  cases a <;> simp [shutdown_modem_power, powerActions, K_MSEC]

theorem setup_mem (b : Bool) (r : Int) : ∀ x ∈ setup_modem_power b r, x ∈ powerActions := by
  cases b <;> by_cases hr : r < 0 <;> simp [setup_modem_power, powerActions, K_MSEC, hr]

theorem count_shutdown (a : Bool) (x : Action) (hx : x ∉ powerActions) :
    (shutdown_modem_power a).count x = 0 :=
  List.count_eq_zero.2 (fun h => hx (shutdown_mem a x h))

theorem count_setup (b : Bool) (r : Int) (x : Action) (hx : x ∉ powerActions) :
    (setup_modem_power b r).count x = 0 :=
  List.count_eq_zero.2 (fun h => hx (setup_mem b r x h))

theorem powerActions_not_session : ∀ x ∈ powerActions, x.isSessionOp = false := by
  decide

namespace cellular_test

theorem round_sessionStep (env : Env) (i : Nat) :
    ∀ a ∈ round env i, a.isSessionStep = true := by
  by_cases h1 : env.sent i < 0 <;> by_cases h2 : env.recv i < 0 <;>
    simp [round, h1, h2, Action.isSessionStep, Action.isSessionOp, K_SECONDS]

theorem rounds_sessionStep (env : Env) : ∀ a ∈ rounds env, a.isSessionStep = true := by
  intro a ha
  simp only [rounds, List.mem_flatMap] at ha
  obtain ⟨i, _, hi⟩ := ha
  exact round_sessionStep env i a hi

theorem session_sessionStep (env : Env) :
    ∀ a ∈ (session env).trace, a.isSessionStep = true := by
  intro a ha
  unfold session at ha
  split at ha
  · simp at ha
    rcases ha with h | h <;> subst h <;> rfl
  · simp at ha
    rcases ha with h | h | h | h | h | h | h
    · subst h; rfl
    · subst h; rfl
    · subst h; rfl
    · exact rounds_sessionStep env a h
    · subst h; rfl
    · subst h; rfl
    · subst h; rfl

end cellular_test

namespace mqtt_test

theorem handler_callbackStep (st : State) (e : mqtt_evt) :
    (mqtt_evt_handler st e).2.all Action.isCallbackStep = true := by
  unfold mqtt_evt_handler
  split <;> try split
  all_goals simp [Action.isCallbackStep]

theorem deliver_callbackStep (st : State) (evts : List mqtt_evt) :
    (deliver st evts).2.all Action.isCallbackStep = true := by
  induction evts generalizing st with
  | nil => simp [deliver]
  | cons e es ih =>
    have h := handler_callbackStep st e
    have h2 := ih (mqtt_evt_handler st e).1
    simp only [List.all_eq_true] at h h2 ⊢
    intro a ha
    simp [deliver] at ha
    rcases ha with h3 | h3 | h3
    · subst h3; rfl
    · exact h a h3
    · exact h2 a h3

theorem all_mono {P Q : Action → Bool} (l : List Action) (h : ∀ a, P a = true → Q a = true)
    (hl : l.all P = true) : l.all Q = true := by
  simp only [List.all_eq_true] at hl ⊢
  exact fun a ha => h a (hl a ha)

theorem callback_waitStep (a : Action) (h : a.isCallbackStep = true) : a.isWaitStep = true := by
  cases a <;> simp_all [Action.isCallbackStep, Action.isWaitStep]

theorem callback_loopStep (a : Action) (h : a.isCallbackStep = true) : a.isLoopStep = true := by
  cases a <;> simp_all [Action.isCallbackStep, Action.isLoopStep]

theorem deliver_waitStep (st : State) (evts : List mqtt_evt) :
    (deliver st evts).2.all Action.isWaitStep = true :=
  all_mono _ callback_waitStep (deliver_callbackStep st evts)

theorem deliver_loopStep (st : State) (evts : List mqtt_evt) :
    (deliver st evts).2.all Action.isLoopStep = true :=
  all_mono _ callback_loopStep (deliver_callbackStep st evts)

theorem connack_wait_waitStep (c : Consts) (conn : Nat → Slice) (t k : Nat) (st : State) :
    (connack_wait c conn t k st).1.all Action.isWaitStep = true := by
  induction t generalizing k st with
  | zero => simp [connack_wait]
  | succ t ih =>
    simp only [connack_wait]
    split_ifs <;>
      simp [List.all_append, deliver_waitStep, ih, Action.isWaitStep, Action.isCallbackStep]

theorem live_and_publish_loopStep (c : Consts) (r : Round) (i : Nat) (st : State) :
    (live_and_publish c r i st).1.all Action.isLoopStep = true := by
  simp only [live_and_publish]
  split_ifs <;>
    simp [List.all_append, deliver_loopStep, Action.isLoopStep, Action.isCallbackStep,
      data_publish, K_SECONDS]

theorem publish_round_loopStep (c : Consts) (r : Round) (i : Nat) (st : State) :
    (publish_round c r i st).1.all Action.isLoopStep = true := by
  simp only [publish_round]
  split_ifs <;>
    simp [List.all_append, deliver_loopStep, live_and_publish_loopStep, Action.isLoopStep,
      Action.isCallbackStep]

theorem publish_loop_from_loopStep (c : Consts) (pub : Nat → Round) (left i : Nat) (st : State) :
    (publish_loop_from c pub left i st).all Action.isLoopStep = true := by
  induction left generalizing i st with
  | zero => simp [publish_loop_from]
  | succ n ih =>
    simp only [publish_loop_from]
    have hr := publish_round_loopStep c (pub i) i st
    split_ifs
    · split
      · next t h => rw [h] at hr; simpa [Action.isLoopStep] using hr
      · next t st1 h =>
        rw [h] at hr
        simp [List.all_append, Action.isLoopStep, ih]
        simpa using hr
    · simp [Action.isLoopStep]

end mqtt_test

namespace mqtt_test

theorem wait_sessionStep (a : Action) (h : a.isWaitStep = true) : a.isSessionStep = true := by
  cases a <;> simp_all [Action.isCallbackStep, Action.isWaitStep, Action.isSessionStep,
    Action.isSessionOp]

theorem loop_sessionStep (a : Action) (h : a.isLoopStep = true) : a.isSessionStep = true := by
  cases a <;> simp_all [Action.isCallbackStep, Action.isLoopStep, Action.isSessionStep,
    Action.isSessionOp]

theorem callback_sessionStep (a : Action) (h : a.isCallbackStep = true) :
    a.isSessionStep = true := by
  cases a <;> simp_all [Action.isCallbackStep, Action.isSessionStep]

theorem publish_phase_sessionStep (c : Consts) (env : Env) (st : State) :
    (publish_phase c env st).trace.all Action.isSessionStep = true := by
  have h := all_mono _ loop_sessionStep (publish_loop_from_loopStep c env.pub
    MQTT_PUB_MSG_COUNT 0 st)
  simp only [publish_phase, publish_loop, Nat.sub_zero]
  split_ifs <;> simp [List.all_append, h, Action.isSessionStep, Action.isSessionOp]

theorem mqtt_session_sessionStep (c : Consts) (env : Env) :
    (session c env).trace.all Action.isSessionStep = true := by
  have hw := fun st => all_mono _ wait_sessionStep (connack_wait_waitStep c env.conn 10 0 st)
  have hd := fun st evts => all_mono _ callback_sessionStep (deliver_callbackStep st evts)
  have hp := publish_phase_sessionStep c env
  simp only [session, broker_init, client_init]
  split_ifs <;> try split
  all_goals try split_ifs
  all_goals simp [List.all_append, hw, hd, hp, Run.after, Action.isSessionStep,
    Action.isSessionOp, K_SECONDS]

end mqtt_test

theorem count_zero_of_all {P : Action → Bool} (l : List Action) (x : Action)
    (hl : l.all P = true) (hx : P x = false) : l.count x = 0 := by
  apply List.count_eq_zero.2
  intro h
  simp only [List.all_eq_true] at hl
  rw [hl x h] at hx
  exact absurd hx (by simp)

theorem cellular_session_all (env : cellular_test.Env) :
    (cellular_test.session env).trace.all Action.isSessionStep = true := by
  simp only [List.all_eq_true]
  exact cellular_test.session_sessionStep env

theorem countP_zero_of_all {P Q : Action → Bool} (l : List Action)
    (hl : l.all P = true) (h : ∀ a, P a = true → Q a = false) : l.countP Q = 0 := by
  rw [List.countP_eq_zero]
  simp only [List.all_eq_true] at hl
  intro a ha
  simp [h a (hl a ha)]

theorem callback_not_poll (a : Action) (h : a.isCallbackStep = true) : a.isPoll = false := by
  cases a <;> simp_all [Action.isCallbackStep, Action.isPoll]

theorem callback_not_publish (a : Action) (h : a.isCallbackStep = true) :
    a.isPublish = false := by
  cases a <;> simp_all [Action.isCallbackStep, Action.isPublish]

theorem wait_not_publish (a : Action) (h : a.isWaitStep = true) : a.isPublish = false := by
  cases a <;> simp_all [Action.isWaitStep, Action.isCallbackStep, Action.isPublish]

theorem wait_poll_1000 (a : Action) (h : a.isWaitStep = true) (hp : a.isPoll = true) :
    ∃ fd, a = .poll fd 1000 := by
  cases a <;> simp_all [Action.isWaitStep, Action.isCallbackStep, Action.isPoll]

namespace mqtt_test

theorem handler_no_ack (st : State) (e : mqtt_evt) (hst : st.connected = 0)
    (he : e.isPositiveConnack = false) : (mqtt_evt_handler st e).1.connected = 0 := by
  unfold mqtt_evt_handler
  simp only [mqtt_evt.isPositiveConnack, Bool.and_eq_false_imp, decide_eq_true_eq,
    decide_eq_false_iff_not] at he
  split
  · next h => simp [he h, hst]
  · rfl
  · exact hst
  · exact hst

theorem deliver_no_ack (st : State) (evts : List mqtt_evt) (hst : st.connected = 0)
    (he : ∀ e ∈ evts, e.isPositiveConnack = false) : (deliver st evts).1.connected = 0 := by
  induction evts generalizing st with
  | nil => simpa [deliver] using hst
  | cons e es ih =>
    simp only [deliver]
    exact ih _ (handler_no_ack st e hst (he e (by simp))) (fun x hx => he x (by simp [hx]))

theorem deliver_countP_poll (st : State) (evts : List mqtt_evt) :
    (deliver st evts).2.countP Action.isPoll = 0 :=
  countP_zero_of_all _ (deliver_callbackStep st evts) callback_not_poll

theorem connack_wait_timeout (c : Consts) (conn : Nat → Slice) (t k : Nat) (st : State)
    (hst : st.connected = 0)
    (hack : ∀ j, k ≤ j → j < k + t →
      (∀ e ∈ (conn j).pollEvts, e.isPositiveConnack = false)
        ∧ ∀ e ∈ (conn j).inputEvts, e.isPositiveConnack = false)
    (hpoll : ∀ j, k ≤ j → j < k + t → 0 ≤ (conn j).pollRet)
    (hin : ∀ j, k ≤ j → j < k + t → 0 < (conn j).pollRet →
      (conn j).revents &&& c.POLLIN ≠ 0 → (conn j).inputRet = 0) :
    (∃ st1, (connack_wait c conn t k st).2 = some st1 ∧ st1.connected = 0)
      ∧ (connack_wait c conn t k st).1.countP Action.isPoll = t := by
  induction t generalizing k st with
  | zero => exact ⟨⟨st, rfl, hst⟩, by simp [connack_wait]⟩
  | succ t ih =>
    have hk := hack k (le_refl _) (by omega)
    have hp := deliver_no_ack st (conn k).pollEvts hst hk.1
    have hq := deliver_no_ack _ (conn k).inputEvts hp hk.2
    have hpo := hpoll k (le_refl _) (by omega)
    have hi := hin k (le_refl _) (by omega)
    have ih1 := ih (k + 1) (deliver (deliver st (conn k).pollEvts).1 (conn k).inputEvts).1 hq
      (fun j h1 h2 => hack j (by omega) (by omega))
      (fun j h1 h2 => hpoll j (by omega) (by omega))
      (fun j h1 h2 => hin j (by omega) (by omega))
    have ih2 := ih (k + 1) (deliver st (conn k).pollEvts).1 hp
      (fun j h1 h2 => hack j (by omega) (by omega))
      (fun j h1 h2 => hpoll j (by omega) (by omega))
      (fun j h1 h2 => hin j (by omega) (by omega))
    simp only [connack_wait]
    split_ifs with h1 h2 h3 h4
    · exact absurd hst h1
    · exact absurd (hi h2.1 h2.2) h3
    · refine ⟨ih1.1, ?_⟩
      simp [List.countP_append, List.countP_cons, deliver_countP_poll, ih1.2, Action.isPoll]
    · omega
    · refine ⟨ih2.1, ?_⟩
      simp [List.countP_append, List.countP_cons, deliver_countP_poll, ih2.2, Action.isPoll]

end mqtt_test

/-! ## Lemmas on the publish loop -/

namespace mqtt_test

/-- The loop as the source writes it: the guard `i < MQTT_PUB_MSG_COUNT &&
atomic_get(&connected)`, the body, and the loop again with `i + 1`. -/
theorem publish_loop_unfold (c : Consts) (pub : Nat → Round) (i : Nat) (st : State) :
    publish_loop c pub i st =
      if i < MQTT_PUB_MSG_COUNT then
        if st.connected ≠ 0 then
          match publish_round c (pub i) i st with
          | (t, none) => .atomic_get st.connected :: t
          | (t, some st1) => .atomic_get st.connected :: t ++ publish_loop c pub (i + 1) st1
        else [.atomic_get st.connected]
      else [] := by
  unfold publish_loop
  by_cases h : i < MQTT_PUB_MSG_COUNT
  · obtain ⟨m, hm⟩ : ∃ m, MQTT_PUB_MSG_COUNT - i = m + 1 := ⟨MQTT_PUB_MSG_COUNT - i - 1, by omega⟩
    have hm' : MQTT_PUB_MSG_COUNT - (i + 1) = m := by omega
    rw [if_pos h, hm, hm']
    rfl
  · have h0 : MQTT_PUB_MSG_COUNT - i = 0 := by omega
    rw [if_neg h, h0]
    rfl

end mqtt_test

theorem publishes_append (l1 l2 : List Action) :
    publishes (l1 ++ l2) = publishes l1 ++ publishes l2 := by
  induction l1 with
  | nil => rfl
  | cons a t ih => cases a <;> simp [publishes, ih]

theorem publishes_nil_of_all {P : Action → Bool} (l : List Action)
    (hl : l.all P = true) (h : ∀ a, P a = true → a.isPublish = false) : publishes l = [] := by
  induction l with
  | nil => rfl
  | cons a t ih =>
    simp only [List.all_cons, Bool.and_eq_true] at hl
    have ha := h a hl.1
    cases a <;> simp_all [publishes, Action.isPublish]

namespace mqtt_test

theorem deliver_publishes (st : State) (evts : List mqtt_evt) :
    publishes (deliver st evts).2 = [] :=
  publishes_nil_of_all _ (deliver_callbackStep st evts) callback_not_publish

theorem deliver_append (st : State) (e1 e2 : List mqtt_evt) :
    (deliver st (e1 ++ e2)).1 = (deliver (deliver st e1).1 e2).1 := by
  induction e1 generalizing st with
  | nil => rfl
  | cons e es ih => simp [deliver, ih]

theorem handler_disconnect (st : State) (d : mqtt_evt) (hd : d.isDisconnect = true) :
    (mqtt_evt_handler st d).1.connected = 0 := by
  simp only [mqtt_evt.isDisconnect, decide_eq_true_eq] at hd
  simp [mqtt_evt_handler, hd]

theorem deliver_clears (st : State) (pre post : List mqtt_evt) (d : mqtt_evt)
    (hd : d.isDisconnect = true) (hpost : ∀ e ∈ post, e.isPositiveConnack = false) :
    (deliver st (pre ++ d :: post)).1.connected = 0 := by
  rw [deliver_append]
  simp only [deliver]
  exact deliver_no_ack _ post (handler_disconnect _ d hd) hpost

theorem tail_publishes (c : Consts) (r : Round) (i : Nat) (st : State) :
    (∃ st1, (live_and_publish c r i st).2 = some st1
        ∧ st1 = (deliver st (r.liveEvts ++ r.publishEvts ++ r.sleepEvts)).1
        ∧ publishes (live_and_publish c r i st).1 = [payload (i + 1)])
      ∨ ((live_and_publish c r i st).2 = none ∧ publishes (live_and_publish c r i st).1 = []) := by
  simp only [live_and_publish]
  split_ifs <;>
    simp [publishes_append, deliver_publishes, publishes, data_publish, deliver_append]

/-- A round either runs to its end, publishing the payload of its number once,
or leaves the loop without publishing. -/
theorem round_publishes (c : Consts) (r : Round) (i : Nat) (st : State) :
    (∃ st1, (publish_round c r i st).2 = some st1 ∧ st1 = (deliver st (r.delivered c)).1
        ∧ publishes (publish_round c r i st).1 = [payload (i + 1)])
      ∨ ((publish_round c r i st).2 = none ∧ publishes (publish_round c r i st).1 = []) := by
  by_cases h1 : r.pollRet < 0
  · simp [publish_round, h1, publishes_append, deliver_publishes, publishes]
  by_cases h2 : r.revents &&& c.POLLIN = c.POLLIN
  · by_cases h3 : r.inputRet ≠ 0
    · simp [publish_round, h1, h2, h3, publishes_append, deliver_publishes, publishes]
    · rcases tail_publishes c r i (deliver (deliver st r.pollEvts).1 r.inputEvts).1 with
        ⟨st1, h4, h5, h6⟩ | ⟨h4, h5⟩
      · left
        refine ⟨st1, ?_, ?_, ?_⟩
        · simp [publish_round, h1, h2, h3, h4]
        · rw [h5]; simp [Round.delivered, h2, deliver_append]
        · simp [publish_round, h1, h2, h3, publishes_append, deliver_publishes, publishes, h6]
      · right
        simp [publish_round, h1, h2, h3, publishes_append, deliver_publishes, publishes, h4, h5]
  · rcases tail_publishes c r i (deliver st r.pollEvts).1 with ⟨st1, h4, h5, h6⟩ | ⟨h4, h5⟩
    · left
      refine ⟨st1, ?_, ?_, ?_⟩
      · simp [publish_round, h1, h2, h4]
      · rw [h5]; simp [Round.delivered, h2, deliver_append]
      · simp [publish_round, h1, h2, publishes_append, deliver_publishes, publishes, h6]
    · right
      simp [publish_round, h1, h2, publishes_append, deliver_publishes, publishes, h4, h5]

theorem round_good (c : Consts) (r : Round) (i : Nat) (st : State)
    (hpoll : 0 ≤ r.pollRet) (hin : r.revents &&& c.POLLIN = c.POLLIN → r.inputRet = 0)
    (hlive : r.liveRet = 0 ∨ r.liveRet = -c.EAGAIN) :
    ∃ st1, (publish_round c r i st).2 = some st1
      ∧ publishes (publish_round c r i st).1 = [payload (i + 1)] := by
  rcases round_publishes c r i st with ⟨st1, h1, _, h2⟩ | ⟨h1, _⟩
  · exact ⟨st1, h1, h2⟩
  · exfalso
    have hp : ¬ r.pollRet < 0 := by omega
    have hl : ¬ (r.liveRet ≠ 0 ∧ r.liveRet ≠ -c.EAGAIN) := by
      rintro ⟨h3, h4⟩
      rcases hlive with h | h
      · exact h3 h
      · exact h4 h
    revert h1
    by_cases h2 : r.revents &&& c.POLLIN = c.POLLIN
    · simp [publish_round, live_and_publish, hp, h2, hin h2, hl]
    · simp [publish_round, live_and_publish, hp, h2, hl]

theorem round_live_fail (c : Consts) (r : Round) (i : Nat) (st : State)
    (h0 : r.liveRet ≠ 0) (h1 : r.liveRet ≠ -c.EAGAIN) :
    (publish_round c r i st).2 = none ∧ publishes (publish_round c r i st).1 = [] := by
  rcases round_publishes c r i st with ⟨st1, h2, _, _⟩ | h
  · exfalso
    revert h2
    simp only [publish_round, live_and_publish]
    split_ifs <;> simp_all
  · exact h

theorem loop_from_publishes (c : Consts) (pub : Nat → Round) (left i : Nat) (st : State) :
    ∃ n, n ≤ left ∧
      publishes (publish_loop_from c pub left i st) = (List.range' (i + 1) n).map payload := by
  induction left generalizing i st with
  | zero => exact ⟨0, le_refl _, rfl⟩
  | succ m ih =>
    simp only [publish_loop_from]
    split_ifs with hc
    · rcases round_publishes c (pub i) i st with ⟨st1, h1, _, h2⟩ | ⟨h1, h2⟩
      · obtain ⟨n, hn, hp⟩ := ih (i + 1) st1
        refine ⟨n + 1, by omega, ?_⟩
        have : publish_round c (pub i) i st = ((publish_round c (pub i) i st).1, some st1) := by
          rw [← h1]
        rw [this]
        simp only
        rw [show Action.atomic_get st.connected :: (publish_round c (pub i) i st).1
            ++ publish_loop_from c pub m (i + 1) st1
          = [Action.atomic_get st.connected] ++ ((publish_round c (pub i) i st).1
            ++ publish_loop_from c pub m (i + 1) st1) from rfl]
        rw [publishes_append, publishes_append, h2, hp]
        simp [publishes, List.range'_succ]
      · refine ⟨0, by omega, ?_⟩
        have : publish_round c (pub i) i st = ((publish_round c (pub i) i st).1, none) := by
          rw [← h1]
        rw [this]
        simp only
        rw [show Action.atomic_get st.connected :: (publish_round c (pub i) i st).1
          = [Action.atomic_get st.connected] ++ (publish_round c (pub i) i st).1 from rfl]
        rw [publishes_append, h2]
        simp [publishes]
    · exact ⟨0, by omega, by simp [publishes]⟩

end mqtt_test

namespace mqtt_test

theorem loop_from_full (c : Consts) (pub : Nat → Round) (left i : Nat) (st : State)
    (hpoll : ∀ j, i ≤ j → j < i + left → 0 ≤ (pub j).pollRet)
    (hin : ∀ j, i ≤ j → j < i + left →
      (pub j).revents &&& c.POLLIN = c.POLLIN → (pub j).inputRet = 0)
    (hlive : ∀ j, i ≤ j → j < i + left → (pub j).liveRet = 0 ∨ (pub j).liveRet = -c.EAGAIN)
    (hflag : .atomic_get 0 ∉ publish_loop_from c pub left i st) :
    publishes (publish_loop_from c pub left i st) = (List.range' (i + 1) left).map payload := by
  induction left generalizing i st with
  | zero => rfl
  | succ m ih =>
    have hc : st.connected ≠ 0 := by
      intro h
      apply hflag
      simp [publish_loop_from, h]
    obtain ⟨st1, h1, h2⟩ := round_good c (pub i) i st (hpoll i (le_refl _) (by omega))
      (hin i (le_refl _) (by omega)) (hlive i (le_refl _) (by omega))
    have hr : publish_round c (pub i) i st = ((publish_round c (pub i) i st).1, some st1) := by
      rw [← h1]
    have hunf : publish_loop_from c pub (m + 1) i st
        = [Action.atomic_get st.connected] ++ ((publish_round c (pub i) i st).1
            ++ publish_loop_from c pub m (i + 1) st1) := by
      simp only [publish_loop_from, if_pos hc]
      rw [hr]
      simp
    have ih1 := ih (i + 1) st1 (fun j h3 h4 => hpoll j (by omega) (by omega))
      (fun j h3 h4 => hin j (by omega) (by omega))
      (fun j h3 h4 => hlive j (by omega) (by omega))
      (fun hv => hflag (by rw [hunf]; simp [hv]))
    rw [hunf, publishes_append, publishes_append, h2, ih1]
    simp [publishes, List.range'_succ]

theorem loop_from_stopped (c : Consts) (pub : Nat → Round) (left i : Nat) (st : State)
    (hst : st.connected = 0) :
    publishes (publish_loop_from c pub left i st) = []
      ∧ ∀ a ∈ publish_loop_from c pub left i st, a = .atomic_get 0 := by
  cases left with
  | zero => simp [publish_loop_from, publishes]
  | succ m => simp [publish_loop_from, hst, publishes]

theorem fivePayloads_eq : fivePayloads = (List.range' 1 5).map payload := by decide

end mqtt_test


/-! ## Shape of a run of `mqtt_test` -/

theorem notSession_beforeLoop (a : Action) (h : a.isSessionOp = false) :
    a.isBeforeLoop = true := by
  cases a <;> simp_all [Action.isSessionOp, Action.isBeforeLoop]

theorem wait_beforeLoop (a : Action) (h : a.isWaitStep = true) : a.isBeforeLoop = true := by
  cases a <;> simp_all [Action.isWaitStep, Action.isCallbackStep, Action.isBeforeLoop]

theorem callback_beforeLoop (a : Action) (h : a.isCallbackStep = true) :
    a.isBeforeLoop = true := by
  cases a <;> simp_all [Action.isCallbackStep, Action.isBeforeLoop]

theorem beforeLoop_not_publish (a : Action) (h : a.isBeforeLoop = true) :
    a.isPublish = false := by
  cases a <;> simp_all [Action.isBeforeLoop, Action.isPublish]

theorem power_beforeLoop (a b : Bool) (r : Int) :
    (shutdown_modem_power a ++ setup_modem_power b r).all Action.isBeforeLoop = true := by
  simp only [List.all_eq_true, List.mem_append]
  rintro x (h | h)
  · exact notSession_beforeLoop x (powerActions_not_session x (shutdown_mem a x h))
  · exact notSession_beforeLoop x (powerActions_not_session x (setup_mem b r x h))

theorem all_app {P : Action → Bool} {l1 l2 : List Action} (h1 : l1.all P = true)
    (h2 : l2.all P = true) : (l1 ++ l2).all P = true := by
  simp [List.all_append, h1, h2]

theorem all_cons_of {P : Action → Bool} {a : Action} {l : List Action} (h1 : P a = true)
    (h2 : l.all P = true) : (a :: l).all P = true := by
  simp [List.all_cons, h1, h2]

theorem after_after (a b : List Action) (r : Run) :
    (r.after b).after a = r.after (a ++ b) := by
  simp [Run.after]

namespace mqtt_test

theorem link_wait_beforeLoop (isUp : Nat → Bool) (T p : Nat) :
    (link_wait isUp T p).1.all Action.isBeforeLoop = true := by
  simp only [List.all_eq_true]
  exact fun a ha => notSession_beforeLoop a (wait_loop_not_session isUp T p a ha)

/-- Shape of the session: either it ends before the publish loop, having made
only steps that precede the loop, or it is a prefix of such steps followed by
the publish phase entered with the flag set. -/
theorem session_cases (c : Consts) (env : Env) :
    ((session c env).trace.all Action.isBeforeLoop = true
        ∧ (session c env).outcome = .returned 0)
      ∨ ∃ pre st, st.connected ≠ 0 ∧ pre.all Action.isBeforeLoop = true
          ∧ session c env = (publish_phase c env st).after pre := by
  have hw := fun st => all_mono _ wait_beforeLoop (connack_wait_waitStep c env.conn 10 0 st)
  have hd := fun st evts => all_mono _ callback_beforeLoop (deliver_callbackStep st evts)
  have hb : (broker_init c env.getaddrinfoRet).1.all Action.isBeforeLoop = true := by
    unfold broker_init; split_ifs <;> rfl
  have hc : ¬ client_init.2 ≠ 0 := by simp [client_init]
  have hci : client_init.1 = [.mqtt_client_init] := rfl
  unfold session
  simp only [if_neg hc, hci]
  by_cases h2 : (broker_init c env.getaddrinfoRet).2 ≠ 0
  · left
    rw [if_pos h2]
    refine ⟨?_, rfl⟩
    repeat' first
      | exact hb | exact hd _ _ | exact hw _ | apply all_app | apply all_cons_of | rfl
  rw [if_neg h2]
  by_cases h3 : env.connectRet ≠ 0
  · left
    rw [if_pos h3]
    refine ⟨?_, rfl⟩
    repeat' first
      | exact hb | exact hd _ _ | exact hw _ | apply all_app | apply all_cons_of | rfl
  rw [if_neg h3]
  split
  · left
    refine ⟨?_, rfl⟩
    repeat' first
      | exact hb | exact hd _ _ | exact hw _ | apply all_app | apply all_cons_of | rfl
  · next st1 hst1 =>
    by_cases h6 : st1.connected = 0
    · left
      rw [if_pos h6]
      refine ⟨?_, rfl⟩
      repeat' first
        | exact hb | exact hd _ _ | exact hw _ | apply all_app | apply all_cons_of | rfl
    · right
      rw [if_neg h6]
      refine ⟨_, st1, h6, ?_, rfl⟩
      repeat' first
        | exact hb | exact hd _ _ | exact hw _ | apply all_app | apply all_cons_of | rfl

/-- Shape of `main`: either it ends before the publish loop, or it is a prefix of
steps that precede the loop followed by the publish phase entered with the flag
set. -/
theorem main_cases (T : Nat) (c : Consts) (env : Env) :
    (mainWith T c env).trace.all Action.isBeforeLoop = true
      ∨ ∃ pre st, st.connected ≠ 0 ∧ pre.all Action.isBeforeLoop = true
          ∧ mainWith T c env = (publish_phase c env st).after pre := by
  have hp := power_beforeLoop env.ldoReadyOff env.ldoReadyOn env.ledOnRet
  have hl := link_wait_beforeLoop env.isUp T 0
  unfold mainWith
  simp only []
  by_cases h1 : (!device_is_ready env.modem_dev) = true
  · left
    rw [if_pos h1]
    repeat' first | exact hp | exact hl | apply all_app | apply all_cons_of | rfl
  rw [if_neg h1]
  by_cases h2 : (!env.ifaceFound) = true
  · left
    rw [if_pos h2]
    repeat' first | exact hp | exact hl | apply all_app | apply all_cons_of | rfl
  rw [if_neg h2]
  by_cases h3 : (!env.isUp (link_wait env.isUp T 0).2) = true
  · left
    rw [if_pos h3]
    repeat' first | exact hp | exact hl | apply all_app | apply all_cons_of | rfl
  rw [if_neg h3]
  rcases session_cases c env with ⟨h, _⟩ | ⟨pre, st, h4, h5, h6⟩
  · left
    show (_ ++ (session c env).trace).all Action.isBeforeLoop = true
    repeat' first | exact hp | exact hl | exact h | apply all_app | apply all_cons_of | rfl
  · right
    rw [h6, after_after]
    refine ⟨_, st, h4, ?_, rfl⟩
    repeat' first | exact hp | exact hl | exact h5 | apply all_app | apply all_cons_of | rfl

end mqtt_test

namespace mqtt_test

theorem phase_publishes (c : Consts) (env : Env) (st : State) :
    publishes (publish_phase c env st).trace = publishes (publish_loop c env.pub 0 st) := by
  simp only [publish_phase]
  split_ifs <;> simp [publishes_append, publishes]

theorem main_publishes (T : Nat) (c : Consts) (env : Env) :
    publishes (mainWith T c env).trace = []
      ∨ ∃ st, st.connected ≠ 0
          ∧ publishes (mainWith T c env).trace = publishes (publish_loop c env.pub 0 st) := by
  rcases main_cases T c env with h | ⟨pre, st, h1, h2, h3⟩
  · left
    exact publishes_nil_of_all _ h beforeLoop_not_publish
  · right
    refine ⟨st, h1, ?_⟩
    rw [h3]
    simp only [Run.after]
    rw [publishes_append, publishes_nil_of_all _ h2 beforeLoop_not_publish, phase_publishes]
    rfl

theorem session_outcome (c : Consts) (env : Env) : (session c env).outcome = .returned 0 := by
  rcases session_cases c env with ⟨_, h⟩ | ⟨pre, st, _, _, h⟩
  · exact h
  · rw [h]; rfl

theorem main_outcome (T : Nat) (c : Consts) (env : Env) :
    (mainWith T c env).outcome =
      if (!device_is_ready env.modem_dev) = true then .returned (-1)
      else if (!env.ifaceFound) = true then .returned (-1)
      else if (!env.isUp (link_wait env.isUp T 0).2) = true then .returned (-1)
      else .returned 0 := by
  unfold mainWith
  simp only []
  split_ifs
  · rfl
  · rfl
  · rfl
  · exact session_outcome c env

theorem outcome_disconnectRet (T : Nat) (c : Consts) (env : Env) (ret : Int) :
    (mainWith T c { env with disconnectRet := ret }).outcome = (mainWith T c env).outcome := by
  rw [main_outcome, main_outcome]

end mqtt_test


/-! ## Shape of a run up to the session -/

theorem power_notSession (a b : Bool) (r : Int) :
    (shutdown_modem_power a ++ setup_modem_power b r).all (fun x => !x.isSessionOp) = true := by
  simp only [List.all_eq_true, List.mem_append]
  rintro x (h | h)
  · simp [powerActions_not_session x (shutdown_mem a x h)]
  · simp [powerActions_not_session x (setup_mem b r x h)]

/-- Shape of `cellular_test`'s `main`: either it ends before the session, having
made no session call, or it is a prefix without session calls followed by the
session. -/
theorem cellular_main_cases (T : Nat) (env : cellular_test.Env) :
    (cellular_test.mainWith T env).trace.all (fun x => !x.isSessionOp) = true
      ∨ ∃ pre, pre.all (fun x => !x.isSessionOp) = true
          ∧ cellular_test.mainWith T env = (cellular_test.session env).after pre := by
  have hp := power_notSession env.ldoReadyOff env.ldoReadyOn env.ledOnRet
  have hl : (cellular_test.link_wait env.isUp T 0).1.all (fun x => !x.isSessionOp) = true := by
    simp only [List.all_eq_true]
    intro a ha
    simp [cellular_test.link_wait_not_session env.isUp T 0 a ha]
  have hb : (cellular_test.bring_up T env).trace.all (fun x => !x.isSessionOp) = true
      ∨ ∃ pre, pre.all (fun x => !x.isSessionOp) = true
          ∧ cellular_test.bring_up T env = (cellular_test.session env).after pre := by
    unfold cellular_test.bring_up
    simp only []
    by_cases h2 : (!env.ifaceFound) = true
    · left
      rw [if_pos h2]
      repeat' first | exact hl | apply all_app | apply all_cons_of | rfl
    rw [if_neg h2]
    by_cases h3 : (!env.isUp (cellular_test.link_wait env.isUp T 0).2) = true
    · left
      rw [if_pos h3]
      repeat' first | exact hl | apply all_app | apply all_cons_of | rfl
    · right
      rw [if_neg h3]
      refine ⟨_, ?_, rfl⟩
      repeat' first | exact hl | apply all_app | apply all_cons_of | rfl
  unfold cellular_test.mainWith
  simp only []
  split
  · rcases hb with h | ⟨pre, h1, h2⟩
    · left
      show (_ ++ (cellular_test.bring_up T env).trace).all _ = true
      repeat' first | exact hp | exact h | apply all_app | apply all_cons_of | rfl
    · right
      rw [h2, after_after]
      refine ⟨_, ?_, rfl⟩
      repeat' first | exact hp | exact h1 | apply all_app | apply all_cons_of | rfl
  · split_ifs
    · left
      repeat' first | exact hp | apply all_app | apply all_cons_of | rfl
    · rcases hb with h | ⟨pre, h1, h2⟩
      · left
        show (_ ++ (cellular_test.bring_up T env).trace).all _ = true
        repeat' first | exact hp | exact h | apply all_app | apply all_cons_of | rfl
      · right
        rw [h2, after_after]
        refine ⟨_, ?_, rfl⟩
        repeat' first | exact hp | exact h1 | apply all_app | apply all_cons_of | rfl

/-- Shape of `mqtt_test`'s `main` up to the session: either it ends before the
session, having made no session call and returning -1, or it is a prefix
without session calls followed by the session. -/
theorem mqtt_main_session_cases (T : Nat) (c : mqtt_test.Consts) (env : mqtt_test.Env) :
    (mqtt_test.mainWith T c env).trace.all (fun x => !x.isSessionOp) = true
      ∨ ∃ pre, pre.all (fun x => !x.isSessionOp) = true
          ∧ mqtt_test.mainWith T c env = (mqtt_test.session c env).after pre := by
  have hp := power_notSession env.ldoReadyOff env.ldoReadyOn env.ledOnRet
  have hl : (mqtt_test.link_wait env.isUp T 0).1.all (fun x => !x.isSessionOp) = true := by
    simp only [List.all_eq_true]
    intro a ha
    simp [mqtt_test.wait_loop_not_session env.isUp T 0 a ha]
  unfold mqtt_test.mainWith
  simp only []
  by_cases h1 : (!device_is_ready env.modem_dev) = true
  · left
    rw [if_pos h1]
    repeat' first | exact hp | exact hl | apply all_app | apply all_cons_of | rfl
  rw [if_neg h1]
  by_cases h2 : (!env.ifaceFound) = true
  · left
    rw [if_pos h2]
    repeat' first | exact hp | exact hl | apply all_app | apply all_cons_of | rfl
  rw [if_neg h2]
  by_cases h3 : (!env.isUp (mqtt_test.link_wait env.isUp T 0).2) = true
  · left
    rw [if_pos h3]
    repeat' first | exact hp | exact hl | apply all_app | apply all_cons_of | rfl
  · right
    rw [if_neg h3]
    refine ⟨_, ?_, rfl⟩
    repeat' first | exact hp | exact hl | apply all_app | apply all_cons_of | rfl

theorem filter_nil_of_all {P Q : Action → Bool} (l : List Action)
    (hl : l.all P = true) (h : ∀ a, P a = true → Q a = false) : l.filter Q = [] := by
  rw [List.filter_eq_nil_iff]
  simp only [List.all_eq_true] at hl
  intro a ha
  simp [h a (hl a ha)]

theorem notSession_not_datagram (a : Action) (h : (!a.isSessionOp) = true) :
    a.isDatagramCall = false := by
  cases a <;> simp_all [Action.isSessionOp, Action.isDatagramCall]

theorem notSession_not_poll (a : Action) (h : (!a.isSessionOp) = true) : a.isPoll = false := by
  cases a <;> simp_all [Action.isSessionOp, Action.isPoll]

theorem notSession_not_publish (a : Action) (h : (!a.isSessionOp) = true) :
    a.isPublish = false := by
  cases a <;> simp_all [Action.isSessionOp, Action.isPublish]

/-! ## The claims -/

/-- C1. Link bring-up timeout, both programs: with a usable modem and a PPP
interface that reports down on every poll, `main` with countdown `T` sleeps one
second exactly `T` times (polling `T + 1` times), returns -1, and makes no
session call. -/
theorem link_timeout (T : Nat) (envC : cellular_test.Env) (c : mqtt_test.Consts)
    (envM : mqtt_test.Env)
    (hdevC : device_is_ready envC.modem_dev = true) (hifC : envC.ifaceFound = true)
    (hdownC : ∀ n, envC.isUp n = false)
    (hdevM : device_is_ready envM.modem_dev = true) (hifM : envM.ifaceFound = true)
    (hdownM : ∀ n, envM.isUp n = false) :
    ((cellular_test.mainWith T envC).trace.count (.k_sleep (K_SECONDS 1)) = T
      ∧ (cellular_test.mainWith T envC).trace.count (.net_if_is_up false) = T + 1
      ∧ (cellular_test.mainWith T envC).outcome = .returned (-1)
      ∧ ∀ a ∈ (cellular_test.mainWith T envC).trace, a.isSessionOp = false)
    ∧ ((mqtt_test.mainWith T c envM).trace.count (.k_sleep (K_SECONDS 1)) = T
      ∧ (mqtt_test.mainWith T c envM).trace.count (.net_if_is_up false) = T + 1
      ∧ (mqtt_test.mainWith T c envM).outcome = .returned (-1)
      ∧ ∀ a ∈ (mqtt_test.mainWith T c envM).trace, a.isSessionOp = false) := by
  constructor
  · obtain ⟨h1, h2, h3, h4⟩ := cellular_test.link_wait_down envC.isUp T 0 (fun n _ _ => hdownC n)
    have hs := cellular_test.link_wait_not_session envC.isUp T 0
    cases hd : envC.modem_dev with
    | none => simp [hd, device_is_ready] at hdevC
    | some d =>
      rw [hd] at hdevC
      simp only [K_SECONDS] at h2
      simp [cellular_test.mainWith, cellular_test.bring_up, hd, hdevC, hifC, hdownC, Run.after,
        List.count_append, h2, h3, K_SECONDS,
        count_shutdown _ (.k_sleep 1000) (by decide), count_setup _ _ (.k_sleep 1000) (by decide),
        count_shutdown _ (.net_if_is_up false) (by decide),
        count_setup _ _ (.net_if_is_up false) (by decide)]
      intro a ha
      rcases ha with h | h | h | h | h | h | h | h | h | h | h | h
      · exact powerActions_not_session a (shutdown_mem _ a h)
      · exact powerActions_not_session a (setup_mem _ _ a h)
      all_goals first | exact hs a h | (subst h; rfl)
  · obtain ⟨h1, h2, h3, h4⟩ := mqtt_test.wait_loop_down envM.isUp T 0 (fun n _ _ => hdownM n)
    have hs := mqtt_test.wait_loop_not_session envM.isUp T 0
    simp only [K_SECONDS] at h2
    simp [mqtt_test.mainWith, hdevM, hifM, hdownM, Run.after,
      List.count_append, h2, h3, K_SECONDS,
      count_shutdown _ (.k_sleep 1000) (by decide), count_setup _ _ (.k_sleep 1000) (by decide),
      count_shutdown _ (.net_if_is_up false) (by decide),
      count_setup _ _ (.net_if_is_up false) (by decide)]
    intro a ha
    rcases ha with h | h | h | h | h | h | h | h | h | h
    · exact powerActions_not_session a (shutdown_mem _ a h)
    · exact powerActions_not_session a (setup_mem _ _ a h)
    all_goals first | exact hs a h | (subst h; rfl)

/-- Witness for C1: the timeout theorem at the source's countdown of 60 and a
link that never comes up, in both programs. -/
theorem link_timeout_witness :
    ((cellular_test.mainWith 60 cellular_test.envDown).trace.count (.k_sleep (K_SECONDS 1)) = 60
      ∧ (cellular_test.mainWith 60 cellular_test.envDown).trace.count (.net_if_is_up false) = 60 + 1
      ∧ (cellular_test.mainWith 60 cellular_test.envDown).outcome = .returned (-1)
      ∧ ∀ a ∈ (cellular_test.mainWith 60 cellular_test.envDown).trace, a.isSessionOp = false)
    ∧ ((mqtt_test.mainWith 60 mqtt_test.zephyrConsts mqtt_test.envDown).trace.count
          (.k_sleep (K_SECONDS 1)) = 60
      ∧ (mqtt_test.mainWith 60 mqtt_test.zephyrConsts mqtt_test.envDown).trace.count
          (.net_if_is_up false) = 60 + 1
      ∧ (mqtt_test.mainWith 60 mqtt_test.zephyrConsts mqtt_test.envDown).outcome = .returned (-1)
      ∧ ∀ a ∈ (mqtt_test.mainWith 60 mqtt_test.zephyrConsts mqtt_test.envDown).trace,
          a.isSessionOp = false) :=
  link_timeout 60 cellular_test.envDown mqtt_test.zephyrConsts mqtt_test.envDown
    rfl rfl (fun _ => rfl) rfl rfl (fun _ => rfl)

/-- Counterexample to C2 as stated: with the source's countdown of 60, the link
reports down on polls 1 and 2 and up on poll 3 (k = 3), yet `cellular_test`'s
`main` returns -1 without a session call, because the check after the loop
polls once more and that fourth poll reports down. -/
theorem link_short_circuit_counterexample :
    cellular_test.envFlap.isUp 0 = false ∧ cellular_test.envFlap.isUp 1 = false
      ∧ cellular_test.envFlap.isUp 2 = true
      ∧ (cellular_test.main cellular_test.envFlap).outcome = .returned (-1)
      ∧ (cellular_test.main cellular_test.envFlap).trace.count (.k_sleep (K_SECONDS 1)) = 2
      ∧ ∀ a ∈ (cellular_test.main cellular_test.envFlap).trace, a.isSessionOp = false := by
  decide

theorem cellular_session_socket (env : cellular_test.Env) :
    .socket ∈ (cellular_test.session env).trace := by
  unfold cellular_test.session; split <;> simp

theorem mqtt_session_init (c : mqtt_test.Consts) (env : mqtt_test.Env) :
    .mqtt_client_init ∈ (mqtt_test.session c env).trace := by
  simp only [mqtt_test.session, mqtt_test.client_init]
  split_ifs <;> try split
  all_goals try split_ifs
  all_goals simp [Run.after]

/-- C2, amended. Link bring-up short-circuit, both programs: if the interface
reports down on polls 1..k-1 and up on poll k (1 <= k <= T), the wait loop ends
at poll k after exactly k-1 one-second sleeps, and `main` polls exactly once
more (k+1 polls in all, whatever later polls would report). It proceeds to the
session when that re-check reports up, and returns -1 without a session call
when it reports down. -/
theorem link_short_circuit (T k : Nat) (envC : cellular_test.Env) (c : mqtt_test.Consts)
    (envM : mqtt_test.Env) (hk : 1 ≤ k) (hkT : k ≤ T)
    (hdevC : device_is_ready envC.modem_dev = true) (hifC : envC.ifaceFound = true)
    (hdownC : ∀ n, n + 1 < k → envC.isUp n = false) (hupC : envC.isUp (k - 1) = true)
    (hdevM : device_is_ready envM.modem_dev = true) (hifM : envM.ifaceFound = true)
    (hdownM : ∀ n, n + 1 < k → envM.isUp n = false) (hupM : envM.isUp (k - 1) = true) :
    ((cellular_test.mainWith T envC).trace.count (.k_sleep (K_SECONDS 1)) = k - 1
      ∧ (cellular_test.mainWith T envC).trace.count (.net_if_is_up false)
          + (cellular_test.mainWith T envC).trace.count (.net_if_is_up true) = k + 1
      ∧ (envC.isUp k = true → .socket ∈ (cellular_test.mainWith T envC).trace)
      ∧ (envC.isUp k = false → (cellular_test.mainWith T envC).outcome = .returned (-1)
          ∧ ∀ a ∈ (cellular_test.mainWith T envC).trace, a.isSessionOp = false))
    ∧ ((mqtt_test.mainWith T c envM).trace.count (.k_sleep (K_SECONDS 1)) = k - 1
      ∧ (mqtt_test.mainWith T c envM).trace.count (.net_if_is_up false)
          + (mqtt_test.mainWith T c envM).trace.count (.net_if_is_up true) = k + 1
      ∧ (envM.isUp k = true → .mqtt_client_init ∈ (mqtt_test.mainWith T c envM).trace)
      ∧ (envM.isUp k = false → (mqtt_test.mainWith T c envM).outcome = .returned (-1)
          ∧ ∀ a ∈ (mqtt_test.mainWith T c envM).trace, a.isSessionOp = false)) := by
  constructor
  · obtain ⟨h1, h2, h3, h4⟩ := cellular_test.link_wait_up envC.isUp T 0 (k - 1) (by omega)
      (fun n _ hn => hdownC n (by omega)) (by simpa using hupC)
    have hs := cellular_test.link_wait_not_session envC.isUp T 0
    have hk' : 0 + (k - 1) + 1 = k := by omega
    rw [hk'] at h1
    have hA := cellular_session_all envC
    cases hd : envC.modem_dev with
    | none => simp [hd, device_is_ready] at hdevC
    | some d =>
      rw [hd] at hdevC
      simp only [K_SECONDS] at h2
      cases hu : envC.isUp k
      · simp [cellular_test.mainWith, cellular_test.bring_up, hd, hdevC, hifC, Run.after,
          List.count_append, h1, h2, h3, h4, hu, K_SECONDS,
          count_shutdown _ (.k_sleep 1000) (by decide),
          count_setup _ _ (.k_sleep 1000) (by decide),
          count_shutdown _ (.net_if_is_up false) (by decide),
          count_setup _ _ (.net_if_is_up false) (by decide),
          count_shutdown _ (.net_if_is_up true) (by decide),
          count_setup _ _ (.net_if_is_up true) (by decide)]
        refine ⟨by omega, ?_⟩
        intro a ha
        rcases ha with h | h | h | h | h | h | h | h | h | h | h | h
        · exact powerActions_not_session a (shutdown_mem _ a h)
        · exact powerActions_not_session a (setup_mem _ _ a h)
        all_goals first | exact hs a h | (subst h; rfl)
      · simp [cellular_test.mainWith, cellular_test.bring_up, hd, hdevC, hifC, Run.after,
          List.count_append, h1, h2, h3, h4, hu, K_SECONDS,
          count_shutdown _ (.k_sleep 1000) (by decide),
          count_setup _ _ (.k_sleep 1000) (by decide),
          count_shutdown _ (.net_if_is_up false) (by decide),
          count_setup _ _ (.net_if_is_up false) (by decide),
          count_shutdown _ (.net_if_is_up true) (by decide),
          count_setup _ _ (.net_if_is_up true) (by decide),
          count_zero_of_all _ (.k_sleep 1000) hA rfl,
          count_zero_of_all _ (.net_if_is_up false) hA rfl,
          count_zero_of_all _ (.net_if_is_up true) hA rfl]
        exact ⟨by omega, Or.inr (Or.inr (Or.inr (cellular_session_socket envC)))⟩
  · obtain ⟨h1, h2, h3, h4⟩ := mqtt_test.wait_loop_up envM.isUp T 0 (k - 1) (by omega)
      (fun n _ hn => hdownM n (by omega)) (by simpa using hupM)
    have hs := mqtt_test.wait_loop_not_session envM.isUp T 0
    have hk' : 0 + (k - 1) + 1 = k := by omega
    rw [hk'] at h1
    have hA := mqtt_test.mqtt_session_sessionStep c envM
    simp only [K_SECONDS] at h2
    cases hu : envM.isUp k
    · simp [mqtt_test.mainWith, hdevM, hifM, Run.after,
        List.count_append, h1, h2, h3, h4, hu, K_SECONDS,
        count_shutdown _ (.k_sleep 1000) (by decide),
        count_setup _ _ (.k_sleep 1000) (by decide),
        count_shutdown _ (.net_if_is_up false) (by decide),
        count_setup _ _ (.net_if_is_up false) (by decide),
        count_shutdown _ (.net_if_is_up true) (by decide),
        count_setup _ _ (.net_if_is_up true) (by decide)]
      refine ⟨by omega, ?_⟩
      intro a ha
      rcases ha with h | h | h | h | h | h | h | h | h | h
      · exact powerActions_not_session a (shutdown_mem _ a h)
      · exact powerActions_not_session a (setup_mem _ _ a h)
      all_goals first | exact hs a h | (subst h; rfl)
    · simp [mqtt_test.mainWith, hdevM, hifM, Run.after,
        List.count_append, h1, h2, h3, h4, hu, K_SECONDS,
        count_shutdown _ (.k_sleep 1000) (by decide),
        count_setup _ _ (.k_sleep 1000) (by decide),
        count_shutdown _ (.net_if_is_up false) (by decide),
        count_setup _ _ (.net_if_is_up false) (by decide),
        count_shutdown _ (.net_if_is_up true) (by decide),
        count_setup _ _ (.net_if_is_up true) (by decide),
        count_zero_of_all _ (.k_sleep 1000) hA rfl,
        count_zero_of_all _ (.net_if_is_up false) hA rfl,
        count_zero_of_all _ (.net_if_is_up true) hA rfl]
      exact ⟨by omega, Or.inr (Or.inr (Or.inr (mqtt_session_init c envM)))⟩

/-- Witness for C2: countdown 60, link up from the third poll on (k = 3), in
both programs. -/
theorem link_short_circuit_witness :
    ((cellular_test.mainWith 60 cellular_test.envUp).trace.count (.k_sleep (K_SECONDS 1)) = 3 - 1
      ∧ (cellular_test.mainWith 60 cellular_test.envUp).trace.count (.net_if_is_up false)
          + (cellular_test.mainWith 60 cellular_test.envUp).trace.count (.net_if_is_up true)
          = 3 + 1
      ∧ (cellular_test.envUp.isUp 3 = true
          → .socket ∈ (cellular_test.mainWith 60 cellular_test.envUp).trace)
      ∧ (cellular_test.envUp.isUp 3 = false
          → (cellular_test.mainWith 60 cellular_test.envUp).outcome = .returned (-1)
          ∧ ∀ a ∈ (cellular_test.mainWith 60 cellular_test.envUp).trace, a.isSessionOp = false))
    ∧ ((mqtt_test.mainWith 60 mqtt_test.zephyrConsts mqtt_test.envUp).trace.count
          (.k_sleep (K_SECONDS 1)) = 3 - 1
      ∧ (mqtt_test.mainWith 60 mqtt_test.zephyrConsts mqtt_test.envUp).trace.count
            (.net_if_is_up false)
          + (mqtt_test.mainWith 60 mqtt_test.zephyrConsts mqtt_test.envUp).trace.count
            (.net_if_is_up true) = 3 + 1
      ∧ (mqtt_test.envUp.isUp 3 = true
          → .mqtt_client_init ∈ (mqtt_test.mainWith 60 mqtt_test.zephyrConsts mqtt_test.envUp).trace)
      ∧ (mqtt_test.envUp.isUp 3 = false
          → (mqtt_test.mainWith 60 mqtt_test.zephyrConsts mqtt_test.envUp).outcome = .returned (-1)
          ∧ ∀ a ∈ (mqtt_test.mainWith 60 mqtt_test.zephyrConsts mqtt_test.envUp).trace,
              a.isSessionOp = false)) :=
  link_short_circuit 60 3 cellular_test.envUp mqtt_test.zephyrConsts mqtt_test.envUp
    (by decide) (by decide) rfl rfl
    (fun n hn => by simp [cellular_test.envUp]; omega) rfl rfl rfl
    (fun n hn => by simp [mqtt_test.envUp]; omega) rfl

theorem round_datagramIO (env : cellular_test.Env) (i : Nat) :
    (cellular_test.round env i).filter Action.isDatagramCall
      = [.sendto env.sock, .recvfrom env.sock 32] := by
  by_cases h1 : env.sent i < 0 <;> by_cases h2 : env.recv i < 0 <;>
    simp [cellular_test.round, h1, h2, Action.isDatagramCall, List.filter_cons,
      cellular_test.bufferSize]

theorem session_echo_rounds (env : cellular_test.Env) (hsock : 0 ≤ env.sock) :
    (cellular_test.session env).trace.filter Action.isDatagramCall
        = [.sendto env.sock, .recvfrom env.sock 32,
           .sendto env.sock, .recvfrom env.sock 32,
           .sendto env.sock, .recvfrom env.sock 32,
           .sendto env.sock, .recvfrom env.sock 32,
           .sendto env.sock, .recvfrom env.sock 32,
           .zsock_close env.sock]
      ∧ (cellular_test.session env).outcome = .idle_forever := by
  have hr : List.range 5 = [0, 1, 2, 3, 4] := rfl
  have hs : ¬ env.sock < 0 := by omega
  simp [cellular_test.session, hs, cellular_test.rounds, hr, List.filter_cons,
    round_datagramIO, Action.isDatagramCall]

/-- C4. Datagram echo round count: once the socket is open, whatever the
five sends and five receives return (and whatever errno a failed send leaves),
the session makes exactly five rounds of one `sendto` followed by one
`recvfrom`, then the `zsock_close` after the fifth round, and `main` ends in its
idle loop without returning an error. The same holds of every run of `main`
that reaches the exchange loop (it makes a send). -/
theorem echo_round_count (T : Nat) (env : cellular_test.Env) :
    (0 ≤ env.sock →
        (cellular_test.session env).trace.filter Action.isDatagramCall
            = [.sendto env.sock, .recvfrom env.sock 32,
               .sendto env.sock, .recvfrom env.sock 32,
               .sendto env.sock, .recvfrom env.sock 32,
               .sendto env.sock, .recvfrom env.sock 32,
               .sendto env.sock, .recvfrom env.sock 32,
               .zsock_close env.sock]
          ∧ (cellular_test.session env).outcome = .idle_forever)
      ∧ ((∃ s, .sendto s ∈ (cellular_test.mainWith T env).trace) →
        (cellular_test.mainWith T env).trace.filter Action.isDatagramCall
            = [.sendto env.sock, .recvfrom env.sock 32,
               .sendto env.sock, .recvfrom env.sock 32,
               .sendto env.sock, .recvfrom env.sock 32,
               .sendto env.sock, .recvfrom env.sock 32,
               .sendto env.sock, .recvfrom env.sock 32,
               .zsock_close env.sock]
          ∧ (cellular_test.mainWith T env).outcome = .idle_forever) := by
  refine ⟨session_echo_rounds env, ?_⟩
  rintro ⟨s, hs⟩
  rcases cellular_main_cases T env with h | ⟨pre, h1, h2⟩
  · simp only [List.all_eq_true] at h
    have := h _ hs
    simp [Action.isSessionOp] at this
  · rw [h2] at hs ⊢
    simp only [Run.after, List.mem_append] at hs ⊢
    have hsess : Action.sendto s ∈ (cellular_test.session env).trace := by
      rcases hs with hs | hs
      · simp only [List.all_eq_true] at h1
        have := h1 _ hs
        simp [Action.isSessionOp] at this
      · exact hs
    have hsock : 0 ≤ env.sock := by
      by_contra hneg
      have hlt : env.sock < 0 := by omega
      simp [cellular_test.session, hlt] at hsess
    obtain ⟨h3, h4⟩ := session_echo_rounds env hsock
    rw [List.filter_append, filter_nil_of_all pre h1 notSession_not_datagram, h3]
    exact ⟨rfl, h4⟩

/-- Witness for C4: a run of `main` whose second receive fails and whose third
send fails with `ENETUNREACH`. -/
theorem echo_round_count_witness :
    (cellular_test.mainWith 60 cellular_test.envBadRecv).trace.filter Action.isDatagramCall
        = [.sendto 0, .recvfrom 0 32, .sendto 0, .recvfrom 0 32, .sendto 0, .recvfrom 0 32,
           .sendto 0, .recvfrom 0 32, .sendto 0, .recvfrom 0 32, .zsock_close 0]
      ∧ (cellular_test.mainWith 60 cellular_test.envBadRecv).outcome = .idle_forever :=
  (echo_round_count 60 cellular_test.envBadRecv).2 ⟨0, by decide⟩

theorem classify_cases (c : cellular_test.Errno) (e : Int) :
    (e = c.ENETUNREACH ∧ cellular_test.classify c e = .NetworkUnreachable)
    ∨ (e = c.EHOSTUNREACH ∧ cellular_test.classify c e = .HostUnreachable)
    ∨ (e = c.EADDRNOTAVAIL ∧ cellular_test.classify c e = .AddressUnavailable)
    ∨ (e = c.ENOBUFS ∧ cellular_test.classify c e = .OutOfBuffers)
    ∨ (e = c.EACCES ∧ cellular_test.classify c e = .PermissionDenied)
    ∨ (e = c.EIO ∧ cellular_test.classify c e = .IOError)
    ∨ (e ∉ [c.ENETUNREACH, c.EHOSTUNREACH, c.EADDRNOTAVAIL, c.ENOBUFS, c.EACCES, c.EIO]
        ∧ cellular_test.classify c e = .Unspecified) := by
  unfold cellular_test.classify
  by_cases h1 : e = c.ENETUNREACH
  · left; exact ⟨h1, if_pos h1⟩
  by_cases h2 : e = c.EHOSTUNREACH
  · right; left; exact ⟨h2, by rw [if_neg h1, if_pos h2]⟩
  by_cases h3 : e = c.EADDRNOTAVAIL
  · right; right; left; exact ⟨h3, by rw [if_neg h1, if_neg h2, if_pos h3]⟩
  by_cases h4 : e = c.ENOBUFS
  · right; right; right; left; exact ⟨h4, by rw [if_neg h1, if_neg h2, if_neg h3, if_pos h4]⟩
  by_cases h5 : e = c.EACCES
  · right; right; right; right; left
    exact ⟨h5, by rw [if_neg h1, if_neg h2, if_neg h3, if_neg h4, if_pos h5]⟩
  by_cases h6 : e = c.EIO
  · right; right; right; right; right; left
    exact ⟨h6, by rw [if_neg h1, if_neg h2, if_neg h3, if_neg h4, if_neg h5, if_pos h6]⟩
  · right; right; right; right; right; right
    refine ⟨by simp [h1, h2, h3, h4, h5, h6], ?_⟩
    rw [if_neg h1, if_neg h2, if_neg h3, if_neg h4, if_neg h5, if_neg h6]

/-- C9. Send-failure classification is total: for every errno value the switch
takes exactly the arm of the constant it equals (`ENETUNREACH`,
`EHOSTUNREACH`, `EADDRNOTAVAIL`, `ENOBUFS`, `EACCES`, `EIO`), and the
`Unspecified` arm for every other value; the line of that arm is logged in a
round whose send failed. -/
theorem send_failure_classification (c : cellular_test.Errno) (hc : c.distinct) (e : Int) :
    (cellular_test.classify c e = .NetworkUnreachable ↔ e = c.ENETUNREACH)
      ∧ (cellular_test.classify c e = .HostUnreachable ↔ e = c.EHOSTUNREACH)
      ∧ (cellular_test.classify c e = .AddressUnavailable ↔ e = c.EADDRNOTAVAIL)
      ∧ (cellular_test.classify c e = .OutOfBuffers ↔ e = c.ENOBUFS)
      ∧ (cellular_test.classify c e = .PermissionDenied ↔ e = c.EACCES)
      ∧ (cellular_test.classify c e = .IOError ↔ e = c.EIO)
      ∧ (cellular_test.classify c e = .Unspecified ↔
          e ∉ [c.ENETUNREACH, c.EHOSTUNREACH, c.EADDRNOTAVAIL, c.ENOBUFS, c.EACCES, c.EIO])
      ∧ ∀ (env : cellular_test.Env) (i : Nat), env.errno = c → env.sendErrno i = e →
          env.sent i < 0 →
          Action.LOG_ERR (cellular_test.classify c e).text ∈ cellular_test.round env i := by
  have hd := hc
  simp only [cellular_test.Errno.distinct, List.nodup_cons, List.mem_cons, List.mem_singleton,
    not_or, List.not_mem_nil, List.nodup_nil, not_false_eq_true, and_true] at hd
  obtain ⟨⟨h12, h13, h14, h15, h16⟩, ⟨h23, h24, h25, h26⟩, ⟨h34, h35, h36⟩, ⟨h45, h46⟩, h56⟩ := hd
  refine ⟨?_, ?_, ?_, ?_, ?_, ?_, ?_, ?_⟩
  case refine_8 =>
    intro env i he hs hlt
    simp [cellular_test.round, hlt, he, hs]
  all_goals
    rcases classify_cases c e with h | h | h | h | h | h | h <;>
      obtain ⟨h1, h2⟩ := h <;> rw [h2]
  all_goals first
    | (subst h1; simp [*]; done)
    | (subst h1; simp [Ne.symm, *])
    | (simp only [List.mem_cons, List.mem_singleton, not_or, List.not_mem_nil] at h1; simp [h1])

/-- Witness for C9, at Zephyr's errno values. -/
theorem send_failure_classification_witness :
    (cellular_test.classify cellular_test.zephyrErrno 114 = .NetworkUnreachable ↔ (114 : Int) = 114)
      ∧ cellular_test.classify cellular_test.zephyrErrno 118 = .HostUnreachable
      ∧ cellular_test.classify cellular_test.zephyrErrno 1 = .Unspecified := by
  have h := send_failure_classification cellular_test.zephyrErrno (by decide)
  exact ⟨(h 114).1, (h 118).2.1.2 rfl, (h 1).2.2.2.2.2.2.1.2 (by decide)⟩

/-- The `modem_dev == NULL` branch of `cellular_test` (lines 55-57) logs and has
no `return`: taken, it would let `main` go on to the resume, the interface
lookup and the session. `modem_dev` is `DEVICE_DT_GET(...)`, the address of a
static device object, so no run of `main` takes this branch. -/
theorem null_branch_falls_through :
    cellular_test.envNull.modem_dev = none
      ∧ (cellular_test.main cellular_test.envNull).trace.filter Action.isNetworkAction
          = [.pm_device_action_run true, .net_if_get_first_by_type, .net_if_up,
             .net_mgmt_init_event_callback, .net_mgmt_add_event_callback,
             .net_if_is_up false, .net_if_is_up false,
             .net_if_is_up true, .net_if_is_up true]
      ∧ .socket ∈ (cellular_test.main cellular_test.envNull).trace
      ∧ (cellular_test.main cellular_test.envNull).outcome = .idle_forever := by
  decide

/-- C10, the failing run. A receive that returns 32 (a datagram filling the
buffer) stores the terminating zero at index 32, and a failed receive (-1)
stores it at index -1; neither index is inside `char buffer[32]`. -/
theorem terminator_store_out_of_buffer :
    cellular_test.envBadRecv.recv 0 = 32
      ∧ cellular_test.envBadRecv.recv 1 = -1
      ∧ (cellular_test.main cellular_test.envBadRecv).trace.filter
            (fun a => a matches .store_buffer _)
          = [.store_buffer 32, .store_buffer (-1), .store_buffer 16, .store_buffer 16,
             .store_buffer 16]
      ∧ ¬ cellular_test.inBuffer 32 ∧ ¬ cellular_test.inBuffer (-1) := by
  decide

theorem session_connect_timeout (c : mqtt_test.Consts) (env : mqtt_test.Env)
    (hres : env.getaddrinfoRet = 0) (hconn : env.connectRet = 0)
    (hack0 : ∀ e ∈ env.connectEvts, e.isPositiveConnack = false)
    (hack : ∀ k, k < 10 →
      (∀ e ∈ (env.conn k).pollEvts, e.isPositiveConnack = false)
        ∧ ∀ e ∈ (env.conn k).inputEvts, e.isPositiveConnack = false)
    (hpoll : ∀ k, k < 10 → 0 ≤ (env.conn k).pollRet)
    (hin : ∀ k, k < 10 → 0 < (env.conn k).pollRet →
      (env.conn k).revents &&& c.POLLIN ≠ 0 → (env.conn k).inputRet = 0) :
    (mqtt_test.session c env).trace.countP Action.isPoll = 10
      ∧ (∀ a ∈ (mqtt_test.session c env).trace, a.isPoll = true → ∃ fd, a = .poll fd 1000)
      ∧ (∀ a ∈ (mqtt_test.session c env).trace, a.isPublish = false)
      ∧ .LOG_ERR "Failed to connect to MQTT broker within 10 seconds."
          ∈ (mqtt_test.session c env).trace
      ∧ (mqtt_test.session c env).outcome = .returned 0 := by
  have h0 := mqtt_test.deliver_no_ack mqtt_test.State.init env.connectEvts rfl hack0
  obtain ⟨⟨st1, hw, hc⟩, hn⟩ := mqtt_test.connack_wait_timeout c env.conn 10 0
    { (mqtt_test.deliver mqtt_test.State.init env.connectEvts).1 with pfd_fd := env.sock } h0
    (fun j _ h => hack j (by omega)) (fun j _ h => hpoll j (by omega))
    (fun j _ h => hin j (by omega))
  have hws := mqtt_test.connack_wait_waitStep c env.conn 10 0
    { (mqtt_test.deliver mqtt_test.State.init env.connectEvts).1 with pfd_fd := env.sock }
  have hds := mqtt_test.deliver_callbackStep mqtt_test.State.init env.connectEvts
  have hdp := mqtt_test.deliver_countP_poll mqtt_test.State.init env.connectEvts
  simp only [List.all_eq_true] at hws hds
  have key : mqtt_test.session c env =
      ⟨[.LOG_INF "Waiting Modem UP", .k_sleep (K_SECONDS 5),
        .LOG_INF "Initializing MQTT client...", .mqtt_client_init, .getaddrinfo, .mqtt_connect]
        ++ (mqtt_test.deliver mqtt_test.State.init env.connectEvts).2
        ++ [.LOG_INF "Waiting for CONNACK..."]
        ++ (mqtt_test.connack_wait c env.conn 10 0
            { (mqtt_test.deliver mqtt_test.State.init env.connectEvts).1 with
                pfd_fd := env.sock }).1
        ++ [.atomic_get st1.connected,
            .LOG_ERR "Failed to connect to MQTT broker within 10 seconds."],
       .returned 0⟩ := by
    simp [mqtt_test.session, mqtt_test.client_init, mqtt_test.broker_init, hres, hconn, hw, hc]
  rw [key]
  refine ⟨?_, ?_, ?_, ?_, rfl⟩
  · simp [List.countP_append, List.countP_cons, hdp, hn, Action.isPoll]
  · intro a ha hp
    simp only [List.mem_append, List.mem_cons, List.mem_singleton, List.not_mem_nil,
      or_false] at ha
    rcases ha with (((h | h) | h) | h) | h
    · rcases h with h | h | h | h | h | h <;> subst h <;> simp [Action.isPoll] at hp
    · rw [callback_not_poll a (hds a h)] at hp; simp at hp
    · subst h; simp [Action.isPoll] at hp
    · exact wait_poll_1000 a (hws a h) hp
    · rcases h with h | h <;> subst h <;> simp [Action.isPoll] at hp
  · intro a ha
    simp only [List.mem_append, List.mem_cons, List.mem_singleton, List.not_mem_nil,
      or_false] at ha
    rcases ha with (((h | h) | h) | h) | h
    · rcases h with h | h | h | h | h | h <;> subst h <;> rfl
    · exact callback_not_publish a (hds a h)
    · subst h; rfl
    · exact wait_not_publish a (hws a h)
    · rcases h with h | h <;> subst h <;> rfl
  · simp

/-- C5. MQTT connect timeout: once the broker is resolved and the connect
request issued, if no CONNACK with result 0 is ever delivered (by the connect
call or in any of the ten slices; refusals and other events may be), no poll
returns a negative value and no input-processing call fails, then the session
makes exactly 10 polls, each of 1000 ms, never publishes, logs the
connect-timeout error and `main` returns. The same holds of every run of `main`
that enters the session. -/
theorem connect_timeout (T : Nat) (c : mqtt_test.Consts) (env : mqtt_test.Env)
    (hres : env.getaddrinfoRet = 0) (hconn : env.connectRet = 0)
    (hack0 : ∀ e ∈ env.connectEvts, e.isPositiveConnack = false)
    (hack : ∀ k, k < 10 →
      (∀ e ∈ (env.conn k).pollEvts, e.isPositiveConnack = false)
        ∧ ∀ e ∈ (env.conn k).inputEvts, e.isPositiveConnack = false)
    (hpoll : ∀ k, k < 10 → 0 ≤ (env.conn k).pollRet)
    (hin : ∀ k, k < 10 → 0 < (env.conn k).pollRet →
      (env.conn k).revents &&& c.POLLIN ≠ 0 → (env.conn k).inputRet = 0) :
    ((mqtt_test.session c env).trace.countP Action.isPoll = 10
      ∧ (∀ a ∈ (mqtt_test.session c env).trace, a.isPoll = true → ∃ fd, a = .poll fd 1000)
      ∧ (∀ a ∈ (mqtt_test.session c env).trace, a.isPublish = false)
      ∧ .LOG_ERR "Failed to connect to MQTT broker within 10 seconds."
          ∈ (mqtt_test.session c env).trace
      ∧ (mqtt_test.session c env).outcome = .returned 0)
    ∧ (.mqtt_client_init ∈ (mqtt_test.mainWith T c env).trace →
      (mqtt_test.mainWith T c env).trace.countP Action.isPoll = 10
      ∧ (∀ a ∈ (mqtt_test.mainWith T c env).trace, a.isPoll = true → ∃ fd, a = .poll fd 1000)
      ∧ (∀ a ∈ (mqtt_test.mainWith T c env).trace, a.isPublish = false)
      ∧ .LOG_ERR "Failed to connect to MQTT broker within 10 seconds."
          ∈ (mqtt_test.mainWith T c env).trace
      ∧ (mqtt_test.mainWith T c env).outcome = .returned 0) := by
  have hS := session_connect_timeout c env hres hconn hack0 hack hpoll hin
  refine ⟨hS, ?_⟩
  intro hreach
  obtain ⟨h1, h2, h3, h4, h5⟩ := hS
  rcases mqtt_main_session_cases T c env with h | ⟨pre, hpre, heq⟩
  · simp only [List.all_eq_true] at h
    have := h _ hreach
    simp [Action.isSessionOp] at this
  · rw [heq]
    simp only [Run.after]
    have hpre' := hpre
    simp only [List.all_eq_true] at hpre'
    refine ⟨?_, ?_, ?_, ?_, h5⟩
    · rw [List.countP_append, countP_zero_of_all pre hpre notSession_not_poll, h1]
    · intro a ha hp
      rcases List.mem_append.1 ha with h | h
      · rw [notSession_not_poll a (hpre' a h)] at hp; simp at hp
      · exact h2 a h hp
    · intro a ha
      rcases List.mem_append.1 ha with h | h
      · exact notSession_not_publish a (hpre' a h)
      · exact h3 a h
    · exact List.mem_append.2 (Or.inr h4)

/-- Witness for C5: a run of `main` against a broker that refuses in the first
slice and is silent in the other nine. -/
theorem connect_timeout_witness :
    (mqtt_test.mainWith 60 mqtt_test.zephyrConsts mqtt_test.envNoAck).trace.countP
        Action.isPoll = 10
      ∧ (∀ a ∈ (mqtt_test.mainWith 60 mqtt_test.zephyrConsts mqtt_test.envNoAck).trace,
          a.isPoll = true → ∃ fd, a = .poll fd 1000)
      ∧ (∀ a ∈ (mqtt_test.mainWith 60 mqtt_test.zephyrConsts mqtt_test.envNoAck).trace,
          a.isPublish = false)
      ∧ .LOG_ERR "Failed to connect to MQTT broker within 10 seconds."
          ∈ (mqtt_test.mainWith 60 mqtt_test.zephyrConsts mqtt_test.envNoAck).trace
      ∧ (mqtt_test.mainWith 60 mqtt_test.zephyrConsts mqtt_test.envNoAck).outcome
          = .returned 0 :=
  (connect_timeout 60 mqtt_test.zephyrConsts mqtt_test.envNoAck rfl rfl (by decide)
    (fun k _ => by
      by_cases h : k = 0 <;>
        simp [mqtt_test.envNoAck, mqtt_test.refusedSlice, mqtt_test.quietSlice, h,
          mqtt_evt.isPositiveConnack])
    (fun k _ => by
      by_cases h : k = 0 <;>
        simp [mqtt_test.envNoAck, mqtt_test.refusedSlice, mqtt_test.quietSlice, h])
    (fun k _ => by
      by_cases h : k = 0 <;>
        simp [mqtt_test.envNoAck, mqtt_test.refusedSlice, mqtt_test.quietSlice, h])).2
    (by decide)

/-- C8. Publish round count: in every run of `main`, and in every run of the
publish loop from any state, the payloads published are a prefix of
"Message 1 from Zephyr" .. "Message 5 from Zephyr" (at most five, the k-th
carrying k). They are all five when every poll returns a non-negative value,
every input-processing call that is made returns 0, every keep-alive returns 0
or `-EAGAIN`, and no read of the flag in the loop returns 0. A round whose
keep-alive returns `-EAGAIN` (poll and input succeeding) publishes and goes on;
a round whose keep-alive returns any other non-zero value leaves the loop
without publishing. -/
theorem publish_round_count (T : Nat) (c : mqtt_test.Consts) (env : mqtt_test.Env)
    (st : mqtt_test.State) :
    publishes (mqtt_test.mainWith T c env).trace <+: mqtt_test.fivePayloads
      ∧ publishes (mqtt_test.publish_loop c env.pub 0 st) <+: mqtt_test.fivePayloads
      ∧ ((∀ i, i < 5 → 0 ≤ (env.pub i).pollRet) →
          (∀ i, i < 5 →
            (env.pub i).revents &&& c.POLLIN = c.POLLIN → (env.pub i).inputRet = 0) →
          (∀ i, i < 5 → (env.pub i).liveRet = 0 ∨ (env.pub i).liveRet = -c.EAGAIN) →
          .atomic_get 0 ∉ mqtt_test.publish_loop c env.pub 0 st →
          publishes (mqtt_test.publish_loop c env.pub 0 st) = mqtt_test.fivePayloads)
      ∧ (∀ (r : mqtt_test.Round) (i : Nat) (s : mqtt_test.State), 0 ≤ r.pollRet →
          (r.revents &&& c.POLLIN = c.POLLIN → r.inputRet = 0) → r.liveRet = -c.EAGAIN →
          ∃ s1, (mqtt_test.publish_round c r i s).2 = some s1
            ∧ publishes (mqtt_test.publish_round c r i s).1 = [mqtt_test.payload (i + 1)])
      ∧ (∀ (r : mqtt_test.Round) (i : Nat) (s : mqtt_test.State),
          r.liveRet ≠ 0 → r.liveRet ≠ -c.EAGAIN →
          (mqtt_test.publish_round c r i s).2 = none
            ∧ publishes (mqtt_test.publish_round c r i s).1 = []) := by
  have hpre : ∀ s : mqtt_test.State,
      publishes (mqtt_test.publish_loop c env.pub 0 s) <+: mqtt_test.fivePayloads := by
    intro s
    obtain ⟨n, hn, hp⟩ :=
      mqtt_test.loop_from_publishes c env.pub mqtt_test.MQTT_PUB_MSG_COUNT 0 s
    simp only [mqtt_test.publish_loop, Nat.sub_zero]
    rw [hp, mqtt_test.fivePayloads_eq]
    have hn5 : n ≤ 5 := hn
    refine ⟨(List.range' (n + 1) (5 - n)).map mqtt_test.payload, ?_⟩
    rw [← List.map_append]
    congr 1
    interval_cases n <;> rfl
  refine ⟨?_, hpre st, ?_, ?_, ?_⟩
  · rcases mqtt_test.main_publishes T c env with h | ⟨s, _, h⟩
    · rw [h]; exact ⟨_, List.nil_append _⟩
    · rw [h]; exact hpre s
  · intro h1 h2 h3 h4
    simp only [mqtt_test.publish_loop, Nat.sub_zero] at h4 ⊢
    rw [mqtt_test.fivePayloads_eq]
    exact mqtt_test.loop_from_full c env.pub 5 0 st (fun j _ h => h1 j (by omega))
      (fun j _ h => h2 j (by omega)) (fun j _ h => h3 j (by omega)) h4
  · intro r i s h1 h2 h3
    exact mqtt_test.round_good c r i s h1 h2 (Or.inr h3)
  · intro r i s h1 h2
    exact mqtt_test.round_live_fail c r i s h1 h2

/-- Witness for C8: keep-alive reports would-block in every round and all five
messages are published. -/
theorem publish_round_count_witness :
    publishes (mqtt_test.publish_loop mqtt_test.zephyrConsts mqtt_test.envWouldBlock.pub 0
        { connected := 1, pfd_fd := 3 })
      = ["Message 1 from Zephyr", "Message 2 from Zephyr", "Message 3 from Zephyr",
         "Message 4 from Zephyr", "Message 5 from Zephyr"] :=
  (publish_round_count 60 mqtt_test.zephyrConsts mqtt_test.envWouldBlock
    { connected := 1, pfd_fd := 3 }).2.2.1
    (fun _ _ => by simp [mqtt_test.envWouldBlock, mqtt_test.envUp, mqtt_test.quietRound])
    (fun _ _ => by simp [mqtt_test.envWouldBlock, mqtt_test.envUp, mqtt_test.quietRound])
    (fun _ _ => by
      simp [mqtt_test.envWouldBlock, mqtt_test.envUp, mqtt_test.quietRound,
        mqtt_test.zephyrConsts])
    (by decide)

/-- C7. Disconnect at cleanup: the publish phase, entered in any state, issues
exactly one disconnect request, placed after the whole loop (so after the last
publish attempt, however the loop ended), and returns 0. A run of `main` that
enters the loop (it makes a 100 ms poll) contains exactly one disconnect
request, with every publish before it, and returns 0. The value the disconnect
request returns does not change what `main` returns. -/
theorem disconnect_at_cleanup (T : Nat) (c : mqtt_test.Consts) (env : mqtt_test.Env) :
    (∀ st : mqtt_test.State,
        (mqtt_test.publish_phase c env st).trace.count .mqtt_disconnect = 1
        ∧ (∃ post, (mqtt_test.publish_phase c env st).trace
              = mqtt_test.publish_loop c env.pub 0 st
                  ++ [.LOG_INF "Disconnecting MQTT client...", .mqtt_disconnect] ++ post
            ∧ ∀ a ∈ post, a.isPublish = false)
        ∧ (mqtt_test.publish_phase c env st).outcome = .returned 0)
      ∧ ((∃ fd, .poll fd 100 ∈ (mqtt_test.mainWith T c env).trace) →
          (mqtt_test.mainWith T c env).trace.count .mqtt_disconnect = 1
          ∧ (∃ pre post, (mqtt_test.mainWith T c env).trace = pre ++ .mqtt_disconnect :: post
              ∧ publishes pre = publishes (mqtt_test.mainWith T c env).trace
              ∧ ∀ a ∈ post, a.isPublish = false)
          ∧ (mqtt_test.mainWith T c env).outcome = .returned 0)
      ∧ ∀ ret : Int,
          (mqtt_test.mainWith T c { env with disconnectRet := ret }).outcome
            = (mqtt_test.mainWith T c env).outcome := by
  have hphase : ∀ st : mqtt_test.State,
      (mqtt_test.publish_phase c env st).trace.count .mqtt_disconnect = 1
        ∧ (∃ post, (mqtt_test.publish_phase c env st).trace
              = mqtt_test.publish_loop c env.pub 0 st
                  ++ [.LOG_INF "Disconnecting MQTT client...", .mqtt_disconnect] ++ post
            ∧ ∀ a ∈ post, a.isPublish = false)
        ∧ (mqtt_test.publish_phase c env st).outcome = .returned 0 := by
    intro st
    have hl := mqtt_test.publish_loop_from_loopStep c env.pub mqtt_test.MQTT_PUB_MSG_COUNT 0 st
    have hz : (mqtt_test.publish_loop c env.pub 0 st).count .mqtt_disconnect = 0 := by
      simp only [mqtt_test.publish_loop, Nat.sub_zero]
      exact count_zero_of_all _ _ hl rfl
    refine ⟨?_, ?_, rfl⟩
    · simp only [mqtt_test.publish_phase]
      split_ifs <;> simp [List.count_append, hz]
    · simp only [mqtt_test.publish_phase]
      split_ifs
      · exact ⟨[.LOG_ERR "mqtt_disconnect: %d", .LOG_INF "Bye!"], by simp,
          by simp [Action.isPublish]⟩
      · exact ⟨[.LOG_INF "Bye!"], by simp, by simp [Action.isPublish]⟩
  refine ⟨hphase, ?_, mqtt_test.outcome_disconnectRet T c env⟩
  rintro ⟨fd, hfd⟩
  rcases mqtt_test.main_cases T c env with h | ⟨pre, st, h1, h2, h3⟩
  · simp only [List.all_eq_true] at h
    have := h _ hfd
    simp [Action.isBeforeLoop] at this
  · obtain ⟨hc, ⟨post, hpost, hnp⟩, ho⟩ := hphase st
    rw [h3]
    simp only [Run.after]
    refine ⟨?_, ?_, ho⟩
    · rw [List.count_append, hc, count_zero_of_all pre .mqtt_disconnect h2 rfl]
    · refine ⟨pre ++ mqtt_test.publish_loop c env.pub 0 st
          ++ [.LOG_INF "Disconnecting MQTT client..."], post, ?_, ?_, hnp⟩
      · rw [hpost]; simp
      · rw [hpost]
        simp only [publishes_append]
        rw [publishes_nil_of_all post (P := fun a => !a.isPublish)
          (by simpa [List.all_eq_true] using hnp) (by intro a ha; simpa using ha)]
        simp [publishes]

/-- Witness for C7: the broker disconnects during the sleep after the second
round and the disconnect request itself fails. -/
theorem disconnect_at_cleanup_witness :
    (mqtt_test.mainWith 60 mqtt_test.zephyrConsts mqtt_test.envDisconnectBetween).trace.count
        .mqtt_disconnect = 1
      ∧ (∃ pre post,
          (mqtt_test.mainWith 60 mqtt_test.zephyrConsts mqtt_test.envDisconnectBetween).trace
              = pre ++ .mqtt_disconnect :: post
            ∧ publishes pre = publishes
                (mqtt_test.mainWith 60 mqtt_test.zephyrConsts mqtt_test.envDisconnectBetween).trace
            ∧ ∀ a ∈ post, a.isPublish = false)
      ∧ (mqtt_test.mainWith 60 mqtt_test.zephyrConsts mqtt_test.envDisconnectBetween).outcome
          = .returned 0 :=
  (disconnect_at_cleanup 60 mqtt_test.zephyrConsts mqtt_test.envDisconnectBetween).2.1
    ⟨3, by decide⟩

/-- Counterexample to C3 as stated: in round 1 the input-processing call
delivers a disconnect event and returns success, keep-alive succeeds, and the
round goes on to publish "Message 1 from Zephyr" after the event; the cleared
flag is read only at the next guard. -/
theorem disconnect_in_round_counterexample :
    (mqtt_test.envDisconnect.pub 0).inputRet = 0
      ∧ (mqtt_test.envDisconnect.pub 0).liveRet = 0
      ∧ (mqtt_test.main mqtt_test.zephyrConsts mqtt_test.envDisconnect).trace.dropWhile
            (fun a => a != .evt_delivered mqtt_test.disconnectEvt)
          = [.evt_delivered mqtt_test.disconnectEvt,
             .LOG_INF "MQTT client disconnected: %d",
             .mqtt_live,
             .LOG_INF "Publishing message %u...",
             .mqtt_publish "Message 1 from Zephyr" 21,
             .k_sleep 2000,
             .atomic_get 0,
             .LOG_INF "Disconnecting MQTT client...",
             .mqtt_disconnect,
             .LOG_INF "Bye!"] := by
  decide

/-- C3, amended. Disconnect stops publishing at the loop guard: entered with the
flag clear, the loop makes no publish (it reads the flag at most once and
ends). So when a round has run to its end and a disconnect event was delivered
during the sleep that ends it (between rounds), with no positive CONNACK after
it, no publish follows; and when the disconnect was delivered anywhere in the
round (by poll, input processing or keep-alive as well), no later round
publishes, so at most the publish of that round itself is attempted. -/
theorem disconnect_stops_at_guard (c : mqtt_test.Consts) (pub : Nat → mqtt_test.Round)
    (i : Nat) (st : mqtt_test.State) :
    (st.connected = 0 →
        publishes (mqtt_test.publish_loop c pub i st) = []
        ∧ ∀ a ∈ mqtt_test.publish_loop c pub i st, a = .atomic_get 0)
      ∧ (∀ (st1 : mqtt_test.State) (pre post : List mqtt_evt) (d : mqtt_evt),
          (mqtt_test.publish_round c (pub i) i st).2 = some st1 →
          (pub i).sleepEvts = pre ++ d :: post → d.isDisconnect = true →
          (∀ e ∈ post, e.isPositiveConnack = false) →
          publishes (mqtt_test.publish_loop c pub (i + 1) st1) = []
          ∧ ∀ a ∈ mqtt_test.publish_loop c pub (i + 1) st1, a = .atomic_get 0)
      ∧ (∀ (st1 : mqtt_test.State) (pre post : List mqtt_evt) (d : mqtt_evt),
          (mqtt_test.publish_round c (pub i) i st).2 = some st1 →
          (pub i).delivered c = pre ++ d :: post → d.isDisconnect = true →
          (∀ e ∈ post, e.isPositiveConnack = false) →
          publishes (mqtt_test.publish_loop c pub (i + 1) st1) = []
          ∧ (publishes (mqtt_test.publish_loop c pub i st)).length ≤ 1) := by
  have hgen : ∀ (st1 : mqtt_test.State) (pre post : List mqtt_evt) (d : mqtt_evt),
      (mqtt_test.publish_round c (pub i) i st).2 = some st1 →
      (pub i).delivered c = pre ++ d :: post → d.isDisconnect = true →
      (∀ e ∈ post, e.isPositiveConnack = false) → st1.connected = 0 := by
    intro st1 pre post d h1 h2 h3 h4
    rcases mqtt_test.round_publishes c (pub i) i st with ⟨s, h5, h6, _⟩ | ⟨h5, _⟩
    · rw [h5] at h1
      cases h1
      rw [h6, h2]
      exact mqtt_test.deliver_clears st pre post d h3 h4
    · rw [h5] at h1; cases h1
  refine ⟨?_, ?_, ?_⟩
  · intro h
    exact mqtt_test.loop_from_stopped c pub _ i st h
  · intro st1 pre post d h1 h2 h3 h4
    apply mqtt_test.loop_from_stopped c pub _ (i + 1) st1
    apply hgen st1 (((pub i).pollEvts
      ++ (if (pub i).revents &&& c.POLLIN = c.POLLIN then (pub i).inputEvts else [])
      ++ (pub i).liveEvts ++ (pub i).publishEvts) ++ pre) post d h1 _ h3 h4
    simp [mqtt_test.Round.delivered, h2]
  · intro st1 pre post d h1 h2 h3 h4
    have hst := hgen st1 pre post d h1 h2 h3 h4
    have hs := (mqtt_test.loop_from_stopped c pub (mqtt_test.MQTT_PUB_MSG_COUNT - (i + 1))
      (i + 1) st1 hst).1
    refine ⟨hs, ?_⟩
    unfold mqtt_test.publish_loop
    cases hleft : mqtt_test.MQTT_PUB_MSG_COUNT - i with
    | zero => simp [mqtt_test.publish_loop_from, publishes]
    | succ m =>
      have hm : m = mqtt_test.MQTT_PUB_MSG_COUNT - (i + 1) := by omega
      simp only [mqtt_test.publish_loop_from]
      split_ifs
      · have hr : mqtt_test.publish_round c (pub i) i st
            = ((mqtt_test.publish_round c (pub i) i st).1, some st1) := by rw [← h1]
        rw [hr]
        simp only
        rcases mqtt_test.round_publishes c (pub i) i st with ⟨s, _, _, h7⟩ | ⟨h5, _⟩
        · rw [show Action.atomic_get st.connected :: (mqtt_test.publish_round c (pub i) i st).1
              ++ mqtt_test.publish_loop_from c pub m (i + 1) st1
            = [Action.atomic_get st.connected] ++ ((mqtt_test.publish_round c (pub i) i st).1
              ++ mqtt_test.publish_loop_from c pub m (i + 1) st1) from rfl]
          rw [publishes_append, publishes_append, h7, hm]
          unfold mqtt_test.publish_loop at hs
          rw [hs]
          simp [publishes]
        · rw [h5] at h1; cases h1
      · simp [publishes]

/-- Witness for C3: a disconnect delivered by input processing in round 1, and
one delivered during the sleep after round 2. -/
theorem disconnect_stops_at_guard_witness :
    (publishes (mqtt_test.publish_loop mqtt_test.zephyrConsts mqtt_test.envDisconnect.pub
          (0 + 1) { connected := 0, pfd_fd := -1 }) = []
        ∧ (publishes (mqtt_test.publish_loop mqtt_test.zephyrConsts
            mqtt_test.envDisconnect.pub 0 { connected := 1, pfd_fd := 3 })).length ≤ 1)
      ∧ (publishes (mqtt_test.publish_loop mqtt_test.zephyrConsts
            mqtt_test.envDisconnectBetween.pub (1 + 1) { connected := 0, pfd_fd := -1 }) = []
        ∧ ∀ a ∈ mqtt_test.publish_loop mqtt_test.zephyrConsts
            mqtt_test.envDisconnectBetween.pub (1 + 1) { connected := 0, pfd_fd := -1 },
            a = .atomic_get 0) :=
  ⟨(disconnect_stops_at_guard mqtt_test.zephyrConsts mqtt_test.envDisconnect.pub 0
      { connected := 1, pfd_fd := 3 }).2.2 { connected := 0, pfd_fd := -1 } [] []
      mqtt_test.disconnectEvt (by decide) (by decide) (by decide) (by simp),
   (disconnect_stops_at_guard mqtt_test.zephyrConsts mqtt_test.envDisconnectBetween.pub 1
      { connected := 1, pfd_fd := 3 }).2.1 { connected := 0, pfd_fd := -1 } [] []
      mqtt_test.disconnectEvt (by decide) (by decide) (by decide) (by simp)⟩

end ZephyrApp
